import Mathlib

set_option maxRecDepth 8000
set_option maxHeartbeats 1000000

/-
Verification development for the Starshot IR compiler pipeline
(lexer, parser, checkers, Python emitter).

Each section embeds one component of the source tree as executable Lean
definitions, keeping the source's structure and names where Lean allows it:
  * `starshot/ir/ast_nodes.py`  — the AST data model
  * `starshot/compiler/python_emitter.py` — the expression-level emitter
  * `starshot/ir/lexer.py` — the tokenizer
  * `starshot/ir/parser.py` — the recursive-descent parser
  * `starshot/compiler/contract_checker.py`
  * `starshot/compiler/effect_checker.py`
  * `starshot/compiler/type_checker.py` (`_infer_op` only)
Theorems about the claims follow the definitions.
-/

namespace Starshot

/-! ## AST model (`starshot/ir/ast_nodes.py`)

Python `LitExpr` carries a raw value plus a `type_hint` string; the pair is
modelled as the single inductive `Lit` (one constructor per `type_hint`).
A Python float value is kept as the string `repr` would print for it, since
no claim depends on float arithmetic. -/

inductive Lit where
  | int (n : Int)
  | float (r : String)
  | str (s : String)
  | bool (b : Bool)
  | unit
deriving DecidableEq

/-- Type expressions (`PrimitiveType`, `ListType`, `OptionType`, `TupleType`,
`RecordType`, `FunctionType`, `EnumType`, `NamedType`). -/
inductive TypeExpr where
  | primitive (name : String)
  | listT (elem : TypeExpr)
  | option (elem : TypeExpr)
  | tuple (elems : List TypeExpr)
  | record (fields : List (String × TypeExpr))
  | func (param ret : TypeExpr)
  | enum (variants : List (String × List TypeExpr))
  | named (name : String)

/-- Patterns (`WildcardPattern`, `LiteralPattern`, `IdentPattern`,
`ConstructorPattern`). `LiteralPattern.value` holds a raw int/float/str/bool;
it is modelled with `Lit` (`Lit.unit` does not occur in parsed patterns). -/
inductive Pattern where
  | wildcard
  | litP (value : Lit)
  | identP (name : String)
  | constructor (name : String) (args : List Pattern)

/-- Expressions. Constructor names track the Python dataclasses:
`lit` = `LitExpr`, `ident` = `IdentExpr`, `letE` = `LetExpr`, `ifE` = `IfExpr`,
`matchE` = `MatchExpr` (a `MatchArm` is the pair pattern × body),
`lam` = `LambdaExpr`, `pipe` = `PipeExpr`, `doE` = `DoExpr`, `op` = `OpExpr`,
`call` = `CallExpr`, `listE` = `ListExpr`, `record` = `RecordExpr`,
`getE` = `GetExpr`, `setE` = `SetExpr`, `builtin` = `BuiltinExpr`,
`someE` = `SomeExpr`, `noneE` = `NoneExpr`, `tryE` = `TryExpr`,
`errorE` = `ErrorExpr`. -/
inductive Expr where
  | lit (value : Lit)
  | ident (name : String)
  | letE (name : String) (value body : Expr)
  | ifE (cond then_ else_ : Expr)
  | matchE (target : Expr) (arms : List (Pattern × Expr))
  | lam (params : List (String × Option TypeExpr)) (body : Expr)
  | pipe (value : Expr) (steps : List Expr)
  | doE (exprs : List Expr)
  | op (o : String) (args : List Expr)
  | call (func : String) (args : List Expr)
  | listE (elems : List Expr)
  | record (type_name : String) (fields : List (String × Expr))
  | getE (obj : Expr) (field : String)
  | setE (obj : Expr) (field : String) (value : Expr)
  | builtin (name : String) (args : List Expr)
  | someE (value : Expr)
  | noneE
  | tryE (body : Expr) (catch_var : String) (catch_body : Expr)
  | errorE (message : Expr)

/-- Contract: optional per-graph pre/postconditions. -/
structure Contract where
  preconditions : List Expr
  postconditions : List Expr

/-- Graph: a top-level function definition. -/
structure Graph where
  name : String
  inputs : List (String × TypeExpr)
  output : TypeExpr
  effects : List String
  contract : Option Contract
  body : Expr

/-- TypeDef: a named type definition. -/
structure TypeDef where
  name : String
  type_expr : TypeExpr

/-- A top-level definition is a `TypeDef` or a `Graph`. -/
inductive Defn where
  | typeDef (td : TypeDef)
  | graph (g : Graph)

/-- Program: ordered list of definitions. -/
structure Program where
  definitions : List Defn

/-- Program.graphs property: the graphs in definition order. -/
def Program.graphs (p : Program) : List Graph :=
  p.definitions.filterMap fun d => match d with
    | .graph g => some g
    | .typeDef _ => none

end Starshot

namespace Starshot.Emitter

/-! ## Python emitter, expression level
(`starshot/compiler/python_emitter.py`, class `PythonEmitter`)

The `_expr` family of methods is pure: it reads no emitter state that affects
its output (it only sets `needs_functools`, which influences the import
prelude, not any expression text).  It is embedded as the mutually recursive
string functions below.  The statement-level emission (`_emit_graph`,
line/indent buffering) is not needed by any claim and is not embedded. -/

open Starshot

/-- Python keywords guarded by `_sanitize_name`. -/
def PY_KEYWORDS : List String :=
  ["lambda", "class", "def", "return", "import", "from", "as",
   "if", "else", "elif", "while", "for", "break", "continue",
   "pass", "raise", "try", "except", "finally", "with", "yield",
   "assert", "del", "in", "is", "not", "and", "or", "global",
   "nonlocal", "True", "False", "None", "match", "case", "type"]

/-- Python `str.replace` for a single-character pattern (every `replace` call
in the emitter and the embedding uses a one-character pattern): each
occurrence of `c` is substituted by `new`. -/
def replaceChar (c : Char) (new : String) (s : String) : String :=
  ⟨s.data.flatMap fun ch => if ch = c then new.data else [ch]⟩

/-- `_sanitize_name`: `-` becomes `_`, `?` becomes `_q`, Python keywords get a
trailing underscore. -/
def sanitize_name (name : String) : String :=
  let name := replaceChar '?' "_q" (replaceChar '-' "_" name)
  if PY_KEYWORDS.contains name then name ++ "_" else name

/-- `_ALL_BUILTINS` from the emitter module. -/
def ALL_BUILTINS : List String :=
  ["not", "map", "filter", "reduce", "head", "tail",
   "cons", "append", "nth", "range", "empty?",
   "sort-by", "length", "concat", "substr", "split",
   "join", "format", "print", "read-line",
   "some", "none", "some?", "unwrap", "map-opt",
   "or-else", "error", "try", "catch", "set",
   "reverse", "first", "second", "last", "contains",
   "abs", "min", "max", "to-string", "to-int", "to-float",
   "to-lower", "to-upper", "string-length", "char-at",
   "string-starts-with", "string-ends-with", "string-contains",
   "string-replace", "string-trim", "flat-map", "zip",
   "take", "drop", "slice", "index-of", "sum", "product",
   "any", "all", "enumerate", "dict", "keys", "values",
   "has-key", "get-or", "int-to-string",
   "list_get", "list-get", "string_trim", "string_starts_with",
   "string_ends_with", "string_contains", "string_replace",
   "int_to_string", "to_string", "to_lower", "to_upper",
   "empty_q", "some_q", "sort_by", "map_opt", "or_else",
   "read_line", "flat_map"]

/-- `_ALL_OPERATORS` from the emitter module. -/
def ALL_OPERATORS : List String :=
  ["+", "-", "*", "/", "%", "==", "!=", "<", ">", "<=", ">=", "and", "or", "not"]

/-- Python `repr` of a string: single-quoted with `\\`, `'`, newline, tab and
carriage return escaped (the form `repr` prints for strings without special
quote-style switching; no claim exercises a pattern literal whose text would
make CPython pick double quotes). -/
def pyStrRepr (s : String) : String :=
  let esc := replaceChar '\r' "\\r" (replaceChar '\t' "\\t" (replaceChar '\n' "\\n"
      (replaceChar '\x27' "\\\x27" (replaceChar '\\' "\\\\" s))))
  "\x27" ++ esc ++ "\x27"

/-- Python `repr` applied to a `LiteralPattern` value (used by
`_pattern_condition`): decimal for ints, `True`/`False` for bools, the stored
repr for floats, `repr` quoting for strings. -/
def pyRepr : Lit → String
  | .int n => toString n
  | .float r => r
  | .str s => pyStrRepr s
  | .bool b => if b then "True" else "False"
  | .unit => "None"

/-- `_lit`: literal emission.  Strings get `\\`, `"` and newline escaped and
are wrapped in double quotes; bools map to `True`/`False`; unit to `None`;
ints and floats print as Python `repr` does. -/
def emit_lit : Lit → String
  | .str s =>
      "\"" ++ replaceChar '\n' "\\n" (replaceChar '\"' "\\\"" (replaceChar '\\' "\\\\" s)) ++ "\""
  | .bool b => if b then "True" else "False"
  | .unit => "None"
  | .float r => r
  | .int n => toString n

/-- Fetch a compiled-argument string.  Python indexes `args[i]` directly and
raises `IndexError` when the argument is missing; the embedding returns a
placeholder in that (never-exercised) situation. -/
def argD (args : List String) (i : Nat) : String :=
  args.getD i "<IndexError>"

/-- Test `isinstance(x, LambdaExpr)`. -/
def isLambda : Expr → Bool
  | .lam _ _ => true
  | _ => false

/-- `_pattern_condition`: the Python condition testing a pattern against the
hidden match binding. -/
def pattern_condition (pat : Pattern) (target : String) : String :=
  match pat with
  | .wildcard => "True"
  | .litP v => target ++ " == " ++ pyRepr v
  | .identP _ => "True"
  | .constructor name _ => "isinstance(" ++ target ++ ", " ++ sanitize_name name ++ ")"

/-- `_pattern_bindings`: (name, accessor) pairs for the identifier sub-patterns
of a constructor pattern; a single payload uses `.value`, otherwise `._i`. -/
def pattern_bindings (pat : Pattern) (target : String) : List (String × String) :=
  match pat with
  | .constructor _ args =>
      args.enum.filterMap fun (i, arg) =>
        match arg with
        | .identP nm =>
            some (sanitize_name nm,
              if args.length == 1 then target ++ ".value" else target ++ "._" ++ toString i)
        | _ => none
  | _ => []

/-- One compiled match arm: either an unconditional catch-all body or a
(condition, body) pair, as accumulated by `_match_expr`'s loop. -/
inductive ArmCode where
  | catchall (body : String)
  | cond (c body : String)

/-- `_build_match_chain`: fold the arm codes into a chained conditional
expression ending in `None`. -/
def build_match_chain : List ArmCode → String
  | [] => "None"
  | .catchall body :: _ => body
  | .cond c body :: rest =>
      "(" ++ body ++ " if " ++ c ++ " else " ++ build_match_chain rest ++ ")"

/-- `py_ops` of `_op_expr`: every operator maps to itself except `/`, which
lowers to Python floor division `//`. -/
def py_op (o : String) : String :=
  if o == "/" then "//" else o

/-- `_op_expr`: unary minus and `not` are special-cased, two arguments become
an infix application, any other arity joins the compiled arguments with the
operator.  `parts` is the list of compiled argument strings (the source
compiles each argument with `self._expr` at the point of use). -/
def op_expr (o : String) (parts : List String) : String :=
  match parts with
  | [a] =>
      if o == "-" then "(-" ++ a ++ ")"
      else if o == "not" then "(not " ++ a ++ ")"
      else "(" ++ String.intercalate (" " ++ py_op o ++ " ") [a] ++ ")"
  | [a, b] => "(" ++ a ++ " " ++ py_op o ++ " " ++ b ++ ")"
  | _ => "(" ++ String.intercalate (" " ++ py_op o ++ " ") parts ++ ")"

/-- `_order_fn_list_args`: for `map`/`filter`, if the first literal argument is
a lambda the order is (fn, list); if the second is, the order is flipped;
otherwise the first argument defaults to the function position. -/
def order_fn_list_args (raw : List Expr) (compiled : List String) : String × String :=
  match raw with
  | [r0, r1] =>
      if isLambda r0 then (argD compiled 0, argD compiled 1)
      else if isLambda r1 then (argD compiled 1, argD compiled 0)
      else (argD compiled 0, argD compiled 1)
  | _ => (argD compiled 0, argD compiled 1)

/-- `_apply_pipe_step`: builtin steps named `filter`/`map`/`reduce`/`sort-by`
take their first literal argument as the function and thread the pipe value as
the collection; every other builtin or call step receives the pipe value as
its first argument.  `compiledStep` is the step compiled as a stand-alone
expression (used only by the fallback branch) and `compiledArgs` are the
step's compiled arguments. -/
def apply_pipe_step (step : Expr) (compiledStep : String) (compiledArgs : List String)
    (pipe_val : String) : String :=
  match step with
  | .builtin name args =>
      if name == "filter" then
        let fn := match compiledArgs with
          | [] => "None"
          | a :: _ => a
        "[_x_ for _x_ in " ++ pipe_val ++ " if " ++ fn ++ "(_x_)]"
      else if name == "map" then
        let fn := match compiledArgs with
          | [] => "None"
          | a :: _ => a
        "[" ++ fn ++ "(_x_) for _x_ in " ++ pipe_val ++ "]"
      else if name == "reduce" then
        let fn := argD compiledArgs 0
        let init := if args.length > 1 then argD compiledArgs 1 else "None"
        "functools.reduce(" ++ fn ++ ", " ++ pipe_val ++ ", " ++ init ++ ")"
      else if name == "sort-by" || name == "sort_by" then
        "sorted(" ++ pipe_val ++ ", key=" ++ argD compiledArgs 0 ++ ")"
      else
        let argsStr := String.intercalate ", " compiledArgs
        if argsStr ≠ "" then sanitize_name name ++ "(" ++ pipe_val ++ ", " ++ argsStr ++ ")"
        else sanitize_name name ++ "(" ++ pipe_val ++ ")"
  | .call func _ =>
      let argsStr := String.intercalate ", " compiledArgs
      if argsStr ≠ "" then sanitize_name func ++ "(" ++ pipe_val ++ ", " ++ argsStr ++ ")"
      else sanitize_name func ++ "(" ++ pipe_val ++ ")"
  | _ => compiledStep ++ "(" ++ pipe_val ++ ")"

/-- `_builtin_expr`: the ~45-entry builtin routing table.  `args` is the list
of compiled argument strings (computed by the caller, as the first line of the
source method does).  The `any`/`all` two-argument branches interpolate an
undefined Python name `_x_` into the f-string, so CPython raises `NameError`
while *emitting*; the embedding marks that never-well-defined output with a
placeholder. -/
def builtin_expr (name : String) (rawArgs : List Expr) (args : List String) : String :=
  let a0 := argD args 0
  let a1 := argD args 1
  let a2 := argD args 2
  match name with
  | "not" => "(not " ++ a0 ++ ")"
  | "map" =>
      let (fn, lst) := order_fn_list_args rawArgs args
      "[" ++ fn ++ "(_x_) for _x_ in " ++ lst ++ "]"
  | "filter" =>
      let (fn, lst) := order_fn_list_args rawArgs args
      "[_x_ for _x_ in " ++ lst ++ " if " ++ fn ++ "(_x_)]"
  | "reduce" =>
      match rawArgs with
      | [r0, r1, r2] =>
          if isLambda r0 then "functools.reduce(" ++ a0 ++ ", " ++ a2 ++ ", " ++ a1 ++ ")"
          else if isLambda r1 then "functools.reduce(" ++ a1 ++ ", " ++ a0 ++ ", " ++ a2 ++ ")"
          else if isLambda r2 then "functools.reduce(" ++ a2 ++ ", " ++ a0 ++ ", " ++ a1 ++ ")"
          else "functools.reduce(" ++ a0 ++ ", " ++ a2 ++ ", " ++ a1 ++ ")"
      | [r0, _] =>
          if isLambda r0 then "functools.reduce(" ++ a0 ++ ", " ++ a1 ++ ")"
          else "functools.reduce(" ++ a1 ++ ", " ++ a0 ++ ")"
      | _ => "functools.reduce(" ++ String.intercalate ", " args ++ ")"
  | "head" => a0 ++ "[0]"
  | "tail" => a0 ++ "[1:]"
  | "cons" => "[" ++ a0 ++ "] + " ++ a1
  | "append" => a0 ++ " + [" ++ a1 ++ "]"
  | "nth" => a0 ++ "[" ++ a1 ++ "]"
  | "range" =>
      if args.length == 1 then "list(range(" ++ a0 ++ "))"
      else if args.length == 2 then "list(range(" ++ a0 ++ ", " ++ a1 ++ "))"
      else "list(range(" ++ a0 ++ ", " ++ a1 ++ ", " ++ a2 ++ "))"
  | "empty?" => "(len(" ++ a0 ++ ") == 0)"
  | "empty_q" => "(len(" ++ a0 ++ ") == 0)"
  | "sort-by" => "sorted(" ++ a1 ++ ", key=" ++ a0 ++ ")"
  | "sort_by" => "sorted(" ++ a1 ++ ", key=" ++ a0 ++ ")"
  | "length" => "len(" ++ a0 ++ ")"
  | "concat" =>
      String.intercalate " + " (args.enum.map fun (i, a) =>
        if i > 0 || args.length > 2 then "str(" ++ a ++ ")" else a)
  | "substr" =>
      if args.length == 2 then a0 ++ "[" ++ a1 ++ ":]"
      else a0 ++ "[" ++ a1 ++ ":" ++ a2 ++ "]"
  | "split" =>
      match rawArgs with
      | _ :: .lit (.str "") :: _ => "list(" ++ a0 ++ ")"
      | _ => a0 ++ ".split(" ++ a1 ++ ")"
  | "join" => a0 ++ ".join(" ++ a1 ++ ")"
  | "format" =>
      if args.length == 1 then "str(" ++ a0 ++ ")"
      else a0 ++ ".format(" ++ String.intercalate ", " args.tail ++ ")"
  | "print" => "print(" ++ String.intercalate ", " args ++ ")"
  | "read-line" => "input()"
  | "read_line" => "input()"
  | "some" => a0
  | "none" => "None"
  | "some?" => "(" ++ a0 ++ " is not None)"
  | "some_q" => "(" ++ a0 ++ " is not None)"
  | "unwrap" => a0
  | "map-opt" => "(" ++ a0 ++ "(" ++ a1 ++ ") if " ++ a1 ++ " is not None else None)"
  | "map_opt" => "(" ++ a0 ++ "(" ++ a1 ++ ") if " ++ a1 ++ " is not None else None)"
  | "or-else" => "(" ++ a0 ++ " if " ++ a0 ++ " is not None else " ++ a1 ++ ")"
  | "or_else" => "(" ++ a0 ++ " if " ++ a0 ++ " is not None else " ++ a1 ++ ")"
  | "error" => "(_ for _ in ()).throw(RuntimeError(" ++ a0 ++ "))"
  | "set" => "__import__(\x27dataclasses\x27).replace(" ++ a0 ++ ", " ++ a1 ++ "=" ++ a2 ++ ")"
  | "reverse" => "list(reversed(" ++ a0 ++ "))"
  | "first" => a0 ++ "[0]"
  | "second" => a0 ++ "[1]"
  | "last" => a0 ++ "[-1]"
  | "contains" => "(" ++ a1 ++ " in " ++ a0 ++ ")"
  | "string-contains" => "(" ++ a1 ++ " in " ++ a0 ++ ")"
  | "string_contains" => "(" ++ a1 ++ " in " ++ a0 ++ ")"
  | "abs" => "abs(" ++ a0 ++ ")"
  | "min" => if args.length == 1 then "min(" ++ a0 ++ ")" else "min(" ++ a0 ++ ", " ++ a1 ++ ")"
  | "max" => if args.length == 1 then "max(" ++ a0 ++ ")" else "max(" ++ a0 ++ ", " ++ a1 ++ ")"
  | "to-string" => "str(" ++ a0 ++ ")"
  | "to_string" => "str(" ++ a0 ++ ")"
  | "int-to-string" => "str(" ++ a0 ++ ")"
  | "int_to_string" => "str(" ++ a0 ++ ")"
  | "to-int" => "int(" ++ a0 ++ ")"
  | "to_int" => "int(" ++ a0 ++ ")"
  | "to-float" => "float(" ++ a0 ++ ")"
  | "to_float" => "float(" ++ a0 ++ ")"
  | "to-lower" => a0 ++ ".lower()"
  | "to_lower" => a0 ++ ".lower()"
  | "to-upper" => a0 ++ ".upper()"
  | "to_upper" => a0 ++ ".upper()"
  | "string-length" => "len(" ++ a0 ++ ")"
  | "string_length" => "len(" ++ a0 ++ ")"
  | "char-at" => a0 ++ "[" ++ a1 ++ "]"
  | "char_at" => a0 ++ "[" ++ a1 ++ "]"
  | "string-starts-with" => a0 ++ ".startswith(" ++ a1 ++ ")"
  | "string_starts_with" => a0 ++ ".startswith(" ++ a1 ++ ")"
  | "string-ends-with" => a0 ++ ".endswith(" ++ a1 ++ ")"
  | "string_ends_with" => a0 ++ ".endswith(" ++ a1 ++ ")"
  | "string-replace" => a0 ++ ".replace(" ++ a1 ++ ", " ++ a2 ++ ")"
  | "string_replace" => a0 ++ ".replace(" ++ a1 ++ ", " ++ a2 ++ ")"
  | "string-trim" => a0 ++ ".strip()"
  | "string_trim" => a0 ++ ".strip()"
  | "flat-map" => "[_y_ for _x_ in " ++ a1 ++ " for _y_ in " ++ a0 ++ "(_x_)]"
  | "flat_map" => "[_y_ for _x_ in " ++ a1 ++ " for _y_ in " ++ a0 ++ "(_x_)]"
  | "zip" => "list(zip(" ++ a0 ++ ", " ++ a1 ++ "))"
  | "take" => a1 ++ "[:" ++ a0 ++ "]"
  | "drop" => a1 ++ "[" ++ a0 ++ ":]"
  | "slice" => a0 ++ "[" ++ a1 ++ ":" ++ a2 ++ "]"
  | "index-of" => "(" ++ a0 ++ ".index(" ++ a1 ++ ") if " ++ a1 ++ " in " ++ a0 ++ " else -1)"
  | "index_of" => "(" ++ a0 ++ ".index(" ++ a1 ++ ") if " ++ a1 ++ " in " ++ a0 ++ " else -1)"
  | "sum" => "sum(" ++ a0 ++ ")"
  | "product" => "functools.reduce(lambda a, b: a * b, " ++ a0 ++ ", 1)"
  | "any" => if args.length > 1 then "<NameError in emitter>" else "any(" ++ a0 ++ ")"
  | "all" => if args.length > 1 then "<NameError in emitter>" else "all(" ++ a0 ++ ")"
  | "enumerate" => "list(enumerate(" ++ a0 ++ "))"
  | "dict" => "\x7b" ++ String.intercalate ", " args ++ "\x7d"
  | "keys" => "list(" ++ a0 ++ ".keys())"
  | "values" => "list(" ++ a0 ++ ".values())"
  | "has-key" => "(" ++ a1 ++ " in " ++ a0 ++ ")"
  | "has_key" => "(" ++ a1 ++ " in " ++ a0 ++ ")"
  | "get-or" => a0 ++ ".get(" ++ a1 ++ ", " ++ a2 ++ ")"
  | "get_or" => a0 ++ ".get(" ++ a1 ++ ", " ++ a2 ++ ")"
  | "list-get" => a0 ++ "[" ++ a1 ++ "]"
  | "list_get" => a0 ++ "[" ++ a1 ++ "]"
  | "tuple" =>
      if args.length == 1 then "(" ++ a0 ++ ",)"
      else "(" ++ String.intercalate ", " args ++ ")"
  | _ => sanitize_name name ++ "(" ++ String.intercalate ", " args ++ ")"

mutual

/-- `PythonEmitter._expr`: compile one expression to Python source text. -/
def emit_expr : Expr → String
  | .lit v => emit_lit v
  | .ident name => if name == "empty" then "[]" else sanitize_name name
  | .letE name value body =>
      "(lambda: ((" ++ sanitize_name name ++ " := " ++ emit_expr value ++ "), "
        ++ emit_expr body ++ ")[-1])()"
  | .ifE c t e =>
      "(" ++ emit_expr t ++ " if " ++ emit_expr c ++ " else " ++ emit_expr e ++ ")"
  | .matchE target arms =>
      match match_arms_code arms with
      | [] => "None"
      | code => "(lambda _mt_: " ++ build_match_chain code ++ ")(" ++ emit_expr target ++ ")"
  | .lam params body =>
      "(lambda " ++ String.intercalate ", " (params.map fun p => sanitize_name p.1)
        ++ ": " ++ emit_expr body ++ ")"
  | .pipe value steps => pipe_steps steps (emit_expr value)
  | .doE exprs =>
      match exprs with
      | [e] => emit_expr e
      | es => "(" ++ String.intercalate ", " (emit_args es) ++ ")[-1]"
  | .op o args => op_expr o (emit_args args)
  | .call func args =>
      if ALL_BUILTINS.contains func then builtin_expr func args (emit_args args)
      else if ALL_OPERATORS.contains func then op_expr func (emit_args args)
      else sanitize_name func ++ "(" ++ String.intercalate ", " (emit_args args) ++ ")"
  | .listE elems => "[" ++ String.intercalate ", " (emit_args elems) ++ "]"
  | .record type_name fields =>
      sanitize_name type_name ++ "(" ++ String.intercalate ", " (emit_fields fields) ++ ")"
  | .getE obj field => emit_expr obj ++ "." ++ sanitize_name field
  | .setE obj field value =>
      "__import__(\x27dataclasses\x27).replace(" ++ emit_expr obj ++ ", "
        ++ sanitize_name field ++ "=" ++ emit_expr value ++ ")"
  | .builtin name args => builtin_expr name args (emit_args args)
  | .someE value => emit_expr value
  | .noneE => "None"
  | .tryE body _ _ =>
      "(lambda: (lambda _try_fn_: _try_fn_())(lambda: " ++ emit_expr body
        ++ "))() if True else None"
  | .errorE message =>
      "(_ for _ in ()).throw(RuntimeError(" ++ emit_expr message ++ "))"

/-- Compile a list of argument expressions (the `[self._expr(a) for a in args]`
comprehensions of the emitter). -/
def emit_args : List Expr → List String
  | [] => []
  | e :: es => emit_expr e :: emit_args es

/-- Compile record fields to `name=value` argument strings. -/
def emit_fields : List (String × Expr) → List String
  | [] => []
  | (fname, fval) :: rest =>
      (sanitize_name fname ++ "=" ++ emit_expr fval) :: emit_fields rest

/-- Loop of `_match_expr`: build the arm codes in declared order, stopping at
the first wildcard/bind arm (the loop `break`s there, so later arms are
dropped). -/
def match_arms_code : List (Pattern × Expr) → List ArmCode
  | [] => []
  | (p, b) :: rest =>
      let body := emit_expr b
      let bindings := pattern_bindings p "_mt_"
      let bound_body :=
        match bindings with
        | [] => body
        | _ =>
            "(lambda " ++ String.intercalate ", " (bindings.map Prod.fst) ++ ": "
              ++ body ++ ")(" ++ String.intercalate ", " (bindings.map Prod.snd) ++ ")"
      match p with
      | .identP nm =>
          [ArmCode.catchall ("(lambda " ++ sanitize_name nm ++ ": " ++ body ++ ")(_mt_)")]
      | .wildcard => [ArmCode.catchall bound_body]
      | _ =>
          ArmCode.cond (pattern_condition p "_mt_") bound_body :: match_arms_code rest

/-- `_pipe_expr` loop: thread the accumulated value text through the steps
left to right. -/
def pipe_steps (steps : List Expr) (acc : String) : String :=
  match steps with
  | [] => acc
  | step :: rest =>
      let acc' :=
        match step with
        | .builtin n args => apply_pipe_step (.builtin n args) "" (emit_args args) acc
        | .call f args => apply_pipe_step (.call f args) "" (emit_args args) acc
        | .lam ps body => "(" ++ emit_expr (.lam ps body) ++ ")(" ++ acc ++ ")"
        | s => emit_expr s ++ "(" ++ acc ++ ")"
      pipe_steps rest acc'

end

end Starshot.Emitter

namespace Starshot.PySem

/-! ## Runtime semantics of the emitted Python fragment

`pyEval` assigns to an IR expression the value its *emitted Python text*
computes under standard CPython semantics.  The case analysis (argument-order
detection, pipe-step special cases, match-chain shape, the `//` lowering of
`/`, …) is the emitter's; the per-construct meaning is the Python meaning of
the text that case emits, documented branch by branch.  Evaluation is fueled
and partial: `none` covers Python runtime errors (`NameError`, `TypeError`,
`IndexError`, raised exceptions) and the parts of the runtime deliberately
not modelled (floats, sorting, dataclass construction, graph definitions).
No theorem asserts anything about an unmodelled case. -/

open Starshot Starshot.Emitter

/-- Runtime values of the emitted programs: Python ints, bools, strings,
`None`, lists, enum-variant dataclass instances (class name plus positional
payload fields) and function closures. -/
inductive Val where
  | int (n : Int)
  | bool (b : Bool)
  | str (s : String)
  | none
  | list (elems : List Val)
  | variant (cls : String) (fields : List Val)
  | closure (params : List String) (body : Expr) (env : List (String × Val))

/-- Variable environment: innermost binding first, keyed by the *sanitized*
name (the emitted code binds and reads the sanitized spelling). -/
abbrev Env := List (String × Val)

/-- Environment lookup; `Option.none` is Python's `NameError`. -/
def lookupEnv (env : Env) (n : String) : Option Val :=
  match env with
  | [] => Option.none
  | (k, v) :: rest => if k == n then some v else lookupEnv rest n

mutual

/-- Python `==` on the modelled values: numeric equality identifies `bool`
with `0`/`1` (Python's `bool` is an `int` subtype), strings and lists compare
structurally, dataclass instances compare by class and fields, values of
unrelated kinds compare unequal (closures only equal themselves by identity,
so distinct lambda objects compare `False`). -/
def valEq : Val → Val → Bool
  | .int a, .int b => a == b
  | .int a, .bool b => a == (if b then (1 : Int) else 0)
  | .bool a, .int b => (if a then (1 : Int) else 0) == b
  | .bool a, .bool b => a == b
  | .str a, .str b => a == b
  | .none, .none => true
  | .list a, .list b => valListEq a b
  | .variant n1 f1, .variant n2 f2 => n1 == n2 && valListEq f1 f2
  | _, _ => false

/-- Elementwise `==` on lists of values. -/
def valListEq : List Val → List Val → Bool
  | [], [] => true
  | a :: as_, b :: bs => valEq a b && valListEq as_ bs
  | _, _ => false

end

/-- Python truthiness: `0`, `False`, `""`, `None` and `[]` are falsy; objects
(variants, closures) are truthy. -/
def truthy : Val → Bool
  | .int n => n != 0
  | .bool b => b
  | .str s => s != ""
  | .none => false
  | .list l => !l.isEmpty
  | .variant _ _ => true
  | .closure _ _ _ => true

/-- Numeric view: Python arithmetic accepts `int` and `bool` (as `0`/`1`);
anything else is a `TypeError` here (floats are not modelled). -/
def asInt : Val → Option Int
  | .int n => some n
  | .bool b => some (if b then 1 else 0)
  | _ => Option.none

/-- Lexicographic `<` on strings by code point, as Python compares them. -/
def pyStrLt (a b : String) : Bool :=
  go a.data b.data
where
  go : List Char → List Char → Bool
    | [], [] => false
    | [], _ :: _ => true
    | _ :: _, [] => false
    | c :: cs, d :: ds => if c = d then go cs ds else decide (c < d)

/-- Python `<` on the modelled values: numeric or string comparison, anything
else is a `TypeError`. -/
def pyLt (a b : Val) : Option Bool :=
  match a, b with
  | .str s, .str t => some (pyStrLt s t)
  | _, _ =>
      match asInt a, asInt b with
      | some x, some y => some (decide (x < y))
      | _, _ => Option.none

/-- Meaning of one emitted binary operator application `(a <op> b)`.
`/` was lowered to `//`, so it floor-divides (`Int.fdiv`); `%` is Python's
floor remainder (`Int.fmod`); division or remainder by zero raises.
`and`/`or` return an operand by truthiness.  String `+` concatenates and list
`+` appends; `*` repetition of sequences is not modelled. -/
def binOp (o : String) (a b : Val) : Option Val :=
  match o with
  | "+" =>
      match a, b with
      | .str s, .str t => some (.str (s ++ t))
      | .list s, .list t => some (.list (s ++ t))
      | _, _ =>
          match asInt a, asInt b with
          | some x, some y => some (.int (x + y))
          | _, _ => Option.none
  | "-" =>
      match asInt a, asInt b with
      | some x, some y => some (.int (x - y))
      | _, _ => Option.none
  | "*" =>
      match asInt a, asInt b with
      | some x, some y => some (.int (x * y))
      | _, _ => Option.none
  | "/" =>
      match asInt a, asInt b with
      | some x, some y => if y == 0 then Option.none else some (.int (Int.fdiv x y))
      | _, _ => Option.none
  | "%" =>
      match asInt a, asInt b with
      | some x, some y => if y == 0 then Option.none else some (.int (Int.fmod x y))
      | _, _ => Option.none
  | "==" => some (.bool (valEq a b))
  | "!=" => some (.bool (!valEq a b))
  | "<" => (pyLt a b).map .bool
  | ">" => (pyLt b a).map .bool
  | "<=" => (pyLt b a).map fun r => .bool (!r)
  | ">=" => (pyLt a b).map fun r => .bool (!r)
  | "and" => some (if truthy a then b else a)
  | "or" => some (if truthy a then a else b)
  | _ => Option.none

/-- Value of a literal's emitted text (floats are not modelled). -/
def litVal : Lit → Option Val
  | .int n => some (.int n)
  | .str s => some (.str s)
  | .bool b => some (.bool b)
  | .unit => some .none
  | .float _ => Option.none

/-- Python attribute access for the accessor `_pattern_bindings` emits:
`.value` exists exactly on single-payload variant classes, `._i` exactly on
multi-payload ones; a miss is an `AttributeError`. -/
def accessorVal (fields : List Val) (patLen i : Nat) : Option Val :=
  if patLen == 1 then
    if fields.length == 1 then fields.get? 0 else Option.none
  else
    if fields.length ≥ 2 then fields.get? i else Option.none

mutual

/-- Value of the Python text `emit_expr e` under environment `env`; see the
namespace comment.  Fuel decreases on every recursive call. -/
def pyEval : Nat → Env → Expr → Option Val
  | 0, _, _ => Option.none
  | Nat.succ fuel, env, e =>
    match e with
    | .lit v => litVal v
    | .ident n =>
        -- `empty` emits `[]`; other identifiers read the sanitized name.
        if n == "empty" then some (.list []) else lookupEnv env (sanitize_name n)
    | .letE n v b => do
        -- `(lambda: ((n := v), body)[-1])()` binds then evaluates the body.
        let vv ← pyEval fuel env v
        pyEval fuel ((sanitize_name n, vv) :: env) b
    | .ifE c t e' => do
        -- value-level ternary `(t if c else e)`.
        let cv ← pyEval fuel env c
        if truthy cv then pyEval fuel env t else pyEval fuel env e'
    | .matchE target arms =>
        -- empty arm list emits the constant `None`; otherwise the chain is
        -- applied to the once-evaluated target.
        match arms with
        | [] => some .none
        | _ => do
            let tv ← pyEval fuel env target
            evalMatchArms fuel env tv arms
    | .lam ps b => some (.closure (ps.map fun p => sanitize_name p.1) b env)
    | .pipe v steps => do
        let pv ← pyEval fuel env v
        evalPipeSteps fuel env pv steps
    | .doE es =>
        match es with
        | [e'] => pyEval fuel env e'
        | [] => Option.none  -- `()[-1]` raises IndexError
        | _ => do
            -- `(e1, ..., ek)[-1]` evaluates all, yields the last.
            let vs ← pyEvalList fuel env es
            vs.getLast?
    | .op o args => evalOp fuel env o args
    | .call f args =>
        if ALL_BUILTINS.contains f then evalBuiltin fuel env f args
        else if ALL_OPERATORS.contains f then evalOp fuel env f args
        else do
          -- plain call `f(args)`: resolves the sanitized name (graph
          -- definitions are not modelled, so only local bindings resolve).
          let fv ← lookupEnv env (sanitize_name f)
          let vs ← pyEvalList fuel env args
          applyVal fuel fv vs
    | .listE es => do
        let vs ← pyEvalList fuel env es
        some (.list vs)
    | .record _ _ => Option.none  -- dataclass construction not modelled
    | .getE _ _ => Option.none    -- attribute access not modelled
    | .setE _ _ _ => Option.none  -- functional update not modelled
    | .builtin n args => evalBuiltin fuel env n args
    | .someE v => pyEval fuel env v  -- option wrap is erased
    | .noneE => some .none
    | .tryE b _ _ => pyEval fuel env b  -- emitted text evaluates the body only
    | .errorE _ => Option.none  -- raises RuntimeError

/-- Evaluate an argument list left to right. -/
def pyEvalList : Nat → Env → List Expr → Option (List Val)
  | 0, _, _ => Option.none
  | Nat.succ fuel, env, es =>
    match es with
    | [] => some []
    | e :: rest => do
        let v ← pyEval fuel env e
        let vs ← pyEvalList fuel env rest
        some (v :: vs)

/-- Call a value: closures of matching arity apply; anything else is a
`TypeError`. -/
def applyVal : Nat → Val → List Val → Option Val
  | 0, _, _ => Option.none
  | Nat.succ fuel, fv, args =>
    match fv with
    | .closure params body cenv =>
        if params.length == args.length then
          pyEval fuel (params.zip args ++ cenv) body
        else Option.none
    | _ => Option.none

/-- Meaning of the compiled match chain: arms in declared order; a literal
arm tests `_mt_ == repr(value)`, a constructor arm tests
`isinstance(_mt_, Cls)` (the pattern names a leaf variant class), wildcard
and bind arms are unconditional, and an exhausted chain is `None`. -/
def evalMatchArms : Nat → Env → Val → List (Pattern × Expr) → Option Val
  | 0, _, _, _ => Option.none
  | Nat.succ fuel, env, target, arms =>
    match arms with
    | [] => some .none
    | (p, b) :: rest =>
      match p with
      | .identP nm => pyEval fuel ((sanitize_name nm, target) :: env) b
      | .wildcard => pyEval fuel env b
      | .litP v =>
          match litVal v with
          | Option.none => Option.none  -- float pattern literal: not modelled
          | some lv =>
              if valEq target lv then pyEval fuel env b
              else evalMatchArms fuel env target rest
      | .constructor nm pargs =>
          match target with
          | .variant cls fields =>
              if sanitize_name nm == cls then do
                let binds ← bindFields fuel fields pargs.length pargs.enum
                pyEval fuel (binds ++ env) b
              else evalMatchArms fuel env target rest
          | _ => evalMatchArms fuel env target rest

/-- Evaluate the accessors of a constructor arm's identifier sub-patterns
(left to right, as the emitted application does). -/
def bindFields : Nat → List Val → Nat → List (Nat × Pattern) → Option Env
  | 0, _, _, _ => Option.none
  | Nat.succ fuel, fields, patLen, pats =>
    match pats with
    | [] => some []
    | (i, .identP nm) :: rest => do
        let v ← accessorVal fields patLen i
        let binds ← bindFields fuel fields patLen rest
        some ((sanitize_name nm, v) :: binds)
    | _ :: rest => bindFields fuel fields patLen rest

/-- Meaning of the threaded pipe: `filter`/`map`/`reduce` steps use their
first literal argument as the function and the threaded value as the
collection; other builtin and call steps call the (sanitized) step name with
the threaded value first; lambda and other steps are applied to it.
`sort-by` steps and unresolvable names are not modelled. -/
def evalPipeSteps : Nat → Env → Val → List Expr → Option Val
  | 0, _, _, _ => Option.none
  | Nat.succ fuel, env, pv, steps =>
    match steps with
    | [] => some pv
    | step :: rest => do
        let pv' ←
          match step with
          | .builtin "filter" args =>
              match args with
              | [] => Option.none  -- emitted `None(_x_)` raises TypeError
              | a :: _ => do
                  let fn ← pyEval fuel env a
                  match pv with
                  | .list l => (evalFilter fuel fn l).map .list
                  | _ => Option.none
          | .builtin "map" args =>
              match args with
              | [] => Option.none
              | a :: _ => do
                  let fn ← pyEval fuel env a
                  match pv with
                  | .list l => (evalMap fuel fn l).map .list
                  | _ => Option.none
          | .builtin "reduce" args =>
              match args with
              | [] => Option.none
              | a :: restArgs => do
                  let fn ← pyEval fuel env a
                  let init ←
                    match restArgs with
                    | [] => some Val.none  -- emitted initializer text `None`
                    | i :: _ => pyEval fuel env i
                  match pv with
                  | .list l => evalFold fuel fn init l
                  | _ => Option.none
          | .builtin "sort-by" _ => Option.none  -- sorting not modelled
          | .builtin "sort_by" _ => Option.none
          | .builtin n args => do
              let fv ← lookupEnv env (sanitize_name n)
              let vs ← pyEvalList fuel env args
              applyVal fuel fv (pv :: vs)
          | .call f args => do
              let fv ← lookupEnv env (sanitize_name f)
              let vs ← pyEvalList fuel env args
              applyVal fuel fv (pv :: vs)
          | s => do
              let fv ← pyEval fuel env s
              applyVal fuel fv [pv]
        evalPipeSteps fuel env pv' rest

/-- `[x for x in l if fn(x)]`: keep the elements on which `fn` is truthy. -/
def evalFilter : Nat → Val → List Val → Option (List Val)
  | 0, _, _ => Option.none
  | Nat.succ fuel, fn, l =>
    match l with
    | [] => some []
    | x :: xs => do
        let r ← applyVal fuel fn [x]
        let rest ← evalFilter fuel fn xs
        if truthy r then some (x :: rest) else some rest

/-- `[fn(x) for x in l]`. -/
def evalMap : Nat → Val → List Val → Option (List Val)
  | 0, _, _ => Option.none
  | Nat.succ fuel, fn, l =>
    match l with
    | [] => some []
    | x :: xs => do
        let r ← applyVal fuel fn [x]
        let rest ← evalMap fuel fn xs
        some (r :: rest)

/-- `functools.reduce(fn, l, acc)`: a left fold. -/
def evalFold : Nat → Val → Val → List Val → Option Val
  | 0, _, _, _ => Option.none
  | Nat.succ fuel, fn, acc, l =>
    match l with
    | [] => some acc
    | x :: xs => do
        let acc' ← applyVal fuel fn [acc, x]
        evalFold fuel fn acc' xs

/-- Meaning of an emitted operator application, following `_op_expr`'s arity
cases: unary `-`/`not`; a lone argument under any other operator emits just
the parenthesized argument; two arguments apply `binOp`; three or more fold
the arithmetic/boolean operators left to right (chained comparisons and the
empty `()` tuple are not modelled). -/
def evalOp : Nat → Env → String → List Expr → Option Val
  | 0, _, _, _ => Option.none
  | Nat.succ fuel, env, o, args =>
    match args with
    | [a] =>
        if o == "-" then do
          let v ← pyEval fuel env a
          let n ← asInt v
          some (.int (-n))
        else if o == "not" then do
          let v ← pyEval fuel env a
          some (.bool (!truthy v))
        else pyEval fuel env a
    | [a, b] => do
        let va ← pyEval fuel env a
        let vb ← pyEval fuel env b
        binOp o va vb
    | [] => Option.none
    | a :: rest =>
        if ["+", "-", "*", "/", "%", "and", "or"].contains o then do
          let va ← pyEval fuel env a
          let vs ← pyEvalList fuel env rest
          vs.foldlM (binOp o) va
        else Option.none

/-- Meaning of the emitted builtin applications that the claims exercise;
the remaining table entries (string/dict builtins, sorting, conversions, …)
are left unmodelled. -/
def evalBuiltin : Nat → Env → String → List Expr → Option Val
  | 0, _, _, _ => Option.none
  | Nat.succ fuel, env, name, args =>
    match name with
    | "not" => do
        match args with
        | a :: _ => do
            let v ← pyEval fuel env a
            some (.bool (!truthy v))
        | [] => Option.none
    | "map" =>
        match args with
        | [r0, r1] => do
            let (fe, le) := if isLambda r0 then (r0, r1)
              else if isLambda r1 then (r1, r0) else (r0, r1)
            let fn ← pyEval fuel env fe
            let lv ← pyEval fuel env le
            match lv with
            | .list l => (evalMap fuel fn l).map .list
            | _ => Option.none
        | _ => Option.none  -- emitter interpolates an IndexError placeholder
    | "filter" =>
        match args with
        | [r0, r1] => do
            let (fe, le) := if isLambda r0 then (r0, r1)
              else if isLambda r1 then (r1, r0) else (r0, r1)
            let fn ← pyEval fuel env fe
            let lv ← pyEval fuel env le
            match lv with
            | .list l => (evalFilter fuel fn l).map .list
            | _ => Option.none
        | _ => Option.none
    | "reduce" =>
        match args with
        | [r0, r1, r2] => do
            -- the emitted argument placement of `_builtin_expr`'s reduce case
            let (fe, ie, le) :=
              if isLambda r0 then (r0, r1, r2)
              else if isLambda r1 then (r1, r2, r0)
              else if isLambda r2 then (r2, r1, r0)
              else (r0, r1, r2)
            let fn ← pyEval fuel env fe
            let iv ← pyEval fuel env ie
            let lv ← pyEval fuel env le
            match lv with
            | .list l => evalFold fuel fn iv l
            | _ => Option.none
        | [r0, r1] => do
            let (fe, le) := if isLambda r0 then (r0, r1) else (r1, r0)
            let fn ← pyEval fuel env fe
            let lv ← pyEval fuel env le
            match lv with
            | .list (x :: xs) => evalFold fuel fn x xs
            | _ => Option.none  -- empty sequence with no initial value raises
        | _ => Option.none
    | "head" =>
        match args with
        | a :: _ => do
            let v ← pyEval fuel env a
            match v with
            | .list (x :: _) => some x
            | _ => Option.none
        | [] => Option.none
    | "first" =>
        match args with
        | a :: _ => do
            let v ← pyEval fuel env a
            match v with
            | .list (x :: _) => some x
            | _ => Option.none
        | [] => Option.none
    | "tail" =>
        match args with
        | a :: _ => do
            let v ← pyEval fuel env a
            match v with
            | .list l => some (.list (l.drop 1))
            | _ => Option.none
        | [] => Option.none
    | "cons" =>
        match args with
        | a :: b :: _ => do
            let va ← pyEval fuel env a
            let vb ← pyEval fuel env b
            match vb with
            | .list l => some (.list (va :: l))
            | _ => Option.none
        | _ => Option.none
    | "append" =>
        match args with
        | a :: b :: _ => do
            let va ← pyEval fuel env a
            let vb ← pyEval fuel env b
            match va with
            | .list l => some (.list (l ++ [vb]))
            | _ => Option.none
        | _ => Option.none
    | "length" =>
        match args with
        | a :: _ => do
            let v ← pyEval fuel env a
            match v with
            | .list l => some (.int l.length)
            | .str s => some (.int s.length)
            | _ => Option.none
        | [] => Option.none
    | "empty?" | "empty_q" =>
        match args with
        | a :: _ => do
            let v ← pyEval fuel env a
            match v with
            | .list l => some (.bool (l.isEmpty))
            | .str s => some (.bool (s == ""))
            | _ => Option.none
        | [] => Option.none
    | "reverse" =>
        match args with
        | a :: _ => do
            let v ← pyEval fuel env a
            match v with
            | .list l => some (.list l.reverse)
            | _ => Option.none
        | [] => Option.none
    | "sum" =>
        match args with
        | a :: _ => do
            let v ← pyEval fuel env a
            match v with
            | .list l => do
                let ns ← l.mapM asInt
                some (.int (ns.foldl (· + ·) 0))
            | _ => Option.none
        | [] => Option.none
    | "some" =>
        match args with
        | a :: _ => pyEval fuel env a
        | [] => Option.none
    | "none" => some .none
    | "some?" | "some_q" =>
        match args with
        | a :: _ => do
            let v ← pyEval fuel env a
            some (.bool (match v with | .none => false | _ => true))
        | [] => Option.none
    | "unwrap" =>
        match args with
        | a :: _ => pyEval fuel env a
        | [] => Option.none
    | "map-opt" | "map_opt" =>
        match args with
        | a :: b :: _ => do
            let x ← pyEval fuel env b
            match x with
            | .none => some .none
            | _ => do
                let fn ← pyEval fuel env a
                applyVal fuel fn [x]
        | _ => Option.none
    | "or-else" | "or_else" =>
        match args with
        | a :: b :: _ => do
            let x ← pyEval fuel env a
            match x with
            | .none => pyEval fuel env b
            | _ => some x
        | _ => Option.none
    | "print" => do
        let _ ← pyEvalList fuel env args
        some .none
    | "error" => Option.none  -- raises RuntimeError
    | _ => Option.none

end

end Starshot.PySem

namespace Starshot.Lexer

/-! ## Tokenizer (`starshot/ir/lexer.py`) -/

open Starshot Starshot.Emitter

/-- Token kinds (`TokenType`). -/
inductive TokenType where
  | lparen | rparen | string | int | float | ident | eof
deriving DecidableEq

/-- Python enum member name, used in parser error messages
(`tok.type.name`). -/
def TokenType.pyName : TokenType → String
  | .lparen => "LPAREN"
  | .rparen => "RPAREN"
  | .string => "STRING"
  | .int => "INT"
  | .float => "FLOAT"
  | .ident => "IDENT"
  | .eof => "EOF"

/-- Token: kind, text, 1-based line and column. -/
structure Token where
  type : TokenType
  value : String
  line : Nat
  col : Nat
deriving DecidableEq

/-- LexError payload: message plus the reported 1-based position. -/
structure LexError where
  msg : String
  line : Nat
  col : Nat
deriving DecidableEq

/-- `_is_atom_char`: not a delimiter and printable.  `str.isprintable` is
modelled on its ASCII fragment (control characters are not printable); no
claim feeds the lexer non-ASCII input. -/
def isAtomChar (ch : Char) : Bool :=
  !(['(', ')', ' ', '\t', '\n', '\r', ';', '"'].contains ch)
    && (0x20 ≤ ch.toNat && ch.toNat ≠ 0x7f)

/-- Digit run check modelling `str.isdigit` on its ASCII fragment. -/
def allDigits (cs : List Char) : Bool :=
  !cs.isEmpty && cs.all Char.isDigit

/-- `_is_int`: `-?[0-9]+`. -/
def is_int (cs : List Char) : Bool :=
  match cs with
  | '-' :: rest => allDigits rest
  | _ => allDigits cs

/-- Split on `.` (for `_is_float`'s `t.split('.')`). -/
def splitDot (cs : List Char) : List (List Char) :=
  cs.foldr (fun c acc =>
    if c = '.' then [] :: acc
    else match acc with
      | h :: t => (c :: h) :: t
      | [] => [[c]]) [[]]

/-- `_is_float`: optional minus, then exactly one dot with digit runs on both
sides. -/
def is_float (cs : List Char) : Bool :=
  let t := match cs with
    | '-' :: rest => rest
    | _ => cs
  if !t.contains '.' then false
  else
    match splitDot t with
    | [p0, p1] => allDigits p0 && allDigits p1
    | _ => false

/-- `_classify_atom`: integer, else float, else identifier. -/
def classify_atom (word : String) (line col : Nat) : Token :=
  if is_int word.data then ⟨.int, word, line, col⟩
  else if is_float word.data then ⟨.float, word, line, col⟩
  else ⟨.ident, word, line, col⟩

/-- Escape mapping inside string literals: `\n`, `\t`, `\"`, `\\`; any other
escaped character stands for itself. -/
def escChar (esc : Char) : Char :=
  if esc = 'n' then '\n'
  else if esc = 't' then '\t'
  else esc

/-- Inner loop of `tokenize` scanning a string literal, starting just past
the opening quote at position (`line`, `col`).  On success returns the
decoded content, the remaining characters and the updated position (just past
the closing quote); when input ends without a closing quote it returns the
line counter at end of input (the column reported then is the opening
quote's, supplied by the caller).  An escape consumes two characters without
touching the line counter — even `\` before a literal newline; a bare literal
newline advances the line and resets the column. -/
def scanString : List Char → Nat → Nat → Except Nat (List Char × List Char × Nat × Nat)
  | [], line, _ => .error line
  | c :: rest, line, col =>
    if c = '"' then .ok ([], rest, line, col + 1)
    else if c = '\\' then
      match rest with
      | esc :: rest2 =>
          match scanString rest2 line (col + 2) with
          | .error l => .error l
          | .ok (buf, rem, l, co) => .ok (escChar esc :: buf, rem, l, co)
      | [] => .error line
    else if c = '\n' then
      match scanString rest (line + 1) 1 with
      | .error l => .error l
      | .ok (buf, rem, l, co) => .ok ('\n' :: buf, rem, l, co)
    else
      match scanString rest line (col + 1) with
      | .error l => .error l
      | .ok (buf, rem, l, co) => .ok (c :: buf, rem, l, co)

/-- Main loop of `tokenize`.  Fuel only bounds the iteration count; every
iteration consumes at least one character, so `length + 1` fuel (as
`tokenize` supplies) never runs out — the fuel-exhaustion error is an
unreachable embedding artifact. -/
def tokenizeAux : Nat → List Char → Nat → Nat → Except LexError (List Token)
  | 0, _, _, _ => .error ⟨"fuel exhausted", 0, 0⟩
  | Nat.succ fuel, cs, line, col =>
    match cs with
    | [] => .ok [⟨.eof, "", line, col⟩]
    | ch :: rest =>
      if ch = ' ' || ch = '\t' || ch = '\r' then
        tokenizeAux fuel rest line (col + 1)
      else if ch = '\n' then
        tokenizeAux fuel rest (line + 1) 1
      else if ch = ';' then
        -- comment: consume up to (but not including) the newline; the column
        -- counter is left untouched, as in the source.
        tokenizeAux fuel ((ch :: rest).dropWhile (· ≠ '\n')) line col
      else if ch = '(' then
        match tokenizeAux fuel rest line (col + 1) with
        | .error e => .error e
        | .ok ts => .ok (⟨.lparen, "(", line, col⟩ :: ts)
      else if ch = ')' then
        match tokenizeAux fuel rest line (col + 1) with
        | .error e => .error e
        | .ok ts => .ok (⟨.rparen, ")", line, col⟩ :: ts)
      else if ch = '"' then
        match scanString rest line (col + 1) with
        | .error finalLine => .error ⟨"Unterminated string literal", finalLine, col⟩
        | .ok (buf, rest', line', col') =>
            match tokenizeAux fuel rest' line' col' with
            | .error e => .error e
            | .ok ts => .ok (⟨.string, ⟨buf⟩, line', col⟩ :: ts)
      else if isAtomChar ch then
        let atom := (ch :: rest).takeWhile isAtomChar
        let rest' := (ch :: rest).dropWhile isAtomChar
        match tokenizeAux fuel rest' line (col + atom.length) with
        | .error e => .error e
        | .ok ts => .ok (classify_atom ⟨atom⟩ line col :: ts)
      else
        .error ⟨"Unexpected character: " ++ pyStrRepr (String.singleton ch), line, col⟩

/-- `tokenize`: run the scanning loop over the whole source with sufficient
fuel. -/
def tokenize (source : String) : Except LexError (List Token) :=
  tokenizeAux (source.length + 1) source.data 1 1

end Starshot.Lexer

namespace Starshot.Parsing

/-! ## Recursive-descent parser (`starshot/ir/parser.py`)

The parser's mutable cursor over `self.tokens` is modelled by passing the
remaining token list.  The recursive productions share one fuel counter; the
two non-`ParseError` failure modes below never occur on `tokenize` output
with the fuel `parse` supplies. -/

open Starshot Starshot.Lexer

/-- Failures: `parse` errors carry the Python message and offending token
(`None` where the source raises without one); `indexError` stands for
Python's `IndexError` on reading past the token list (unreachable, since
`tokenize` terminates every stream with an EOF token that no production
consumes without erroring); `fuel` is the embedding's fuel-exhaustion
artifact. -/
inductive PError where
  | parse (msg : String) (token : Option Token)
  | indexError
  | fuel
deriving DecidableEq

/-- `self.peek()`. -/
def peekT : List Token → Except PError Token
  | [] => .error .indexError
  | t :: _ => .ok t

/-- `self.advance()`. -/
def advanceT : List Token → Except PError (Token × List Token)
  | [] => .error .indexError
  | t :: ts => .ok (t, ts)

/-- `self.expect(ttype, value)`. -/
def expectT (ts : List Token) (ty : TokenType) (v : Option String) :
    Except PError (Token × List Token) := do
  let (tok, ts') ← advanceT ts
  if tok.type ≠ ty then
    .error (.parse ("Expected " ++ ty.pyName ++ ", got " ++ tok.type.pyName
      ++ " (" ++ Emitter.pyStrRepr tok.value ++ ")") (some tok))
  else
    match v with
    | some val =>
        if tok.value ≠ val then
          .error (.parse ("Expected " ++ Emitter.pyStrRepr val ++ ", got "
            ++ Emitter.pyStrRepr tok.value) (some tok))
        else .ok (tok, ts')
    | none => .ok (tok, ts')

/-- `self._lookahead_keyword(kw)`: the token after the upcoming one. -/
def lookaheadKeyword (ts : List Token) (kw : String) : Bool :=
  match ts with
  | _ :: t2 :: _ => t2.value == kw
  | _ => false

/-- `OPERATORS` of the parser module (note: no `not`, unlike the emitter's
operator set). -/
def PARSER_OPERATORS : List String :=
  ["+", "-", "*", "/", "%", "==", "!=", "<", ">", "<=", ">=", "and", "or"]

/-- `BUILTINS` of the parser module (the 30-name recognition set). -/
def PARSER_BUILTINS : List String :=
  ["not", "map", "filter", "reduce", "head", "tail",
   "cons", "append", "nth", "range", "empty?",
   "sort-by", "length", "concat", "substr", "split",
   "join", "format", "print", "read-line",
   "some", "none", "some?", "unwrap", "map-opt",
   "or-else", "error", "try", "catch", "set"]

/-- `PRIMITIVE_TYPES`. -/
def PRIMITIVE_TYPES : List String := ["Int", "Float", "String", "Bool", "Unit"]

/-- Python `int()` on an INT token's text (`-?[0-9]+`). -/
def strToInt (s : String) : Int :=
  let digits (cs : List Char) : Nat := cs.foldl (fun a c => 10 * a + (c.toNat - 48)) 0
  match s.data with
  | '-' :: rest => -(digits rest : Int)
  | cs => (digits cs : Int)

/-- `Parser._chain_lets`: rewrite each body-less `let` (body = unit literal)
that has following siblings so that the rest of the do-block becomes its
body, recursively. -/
def chain_lets : List Expr → List Expr
  | [] => []
  | e :: rest =>
    match e with
    | .letE n v (.lit .unit) =>
        if rest.isEmpty then e :: chain_lets rest
        else
          match chain_lets rest with
          | [r] => [.letE n v r]
          | remaining => [.letE n v (.doE remaining)]
    | _ => e :: chain_lets rest

mutual

/-- `Parser.parse_program`. -/
def parse_program : Nat → List Token → Except PError (Program × List Token)
  | 0, _ => .error .fuel
  | Nat.succ fuel, ts => do
      let (_, ts) ← expectT ts .lparen none
      let (_, ts) ← expectT ts .ident (some "program")
      let (defs, ts) ← parse_defs fuel ts
      let (_, ts) ← expectT ts .rparen none
      .ok (⟨defs⟩, ts)

/-- Loop of `parse_program`: definitions until the closing paren. -/
def parse_defs : Nat → List Token → Except PError (List Defn × List Token)
  | 0, _ => .error .fuel
  | Nat.succ fuel, ts => do
      let t ← peekT ts
      if t.type == .rparen then .ok ([], ts)
      else do
        let (d, ts) ← parse_definition fuel ts
        let (ds, ts) ← parse_defs fuel ts
        .ok (d :: ds, ts)

/-- `Parser.parse_definition`. -/
def parse_definition : Nat → List Token → Except PError (Defn × List Token)
  | 0, _ => .error .fuel
  | Nat.succ fuel, ts => do
      let (_, ts) ← expectT ts .lparen none
      let (kw, ts) ← advanceT ts
      if kw.value == "type" then do
        let (td, ts) ← parse_type_def fuel ts
        .ok (.typeDef td, ts)
      else if kw.value == "graph" then do
        let (g, ts) ← parse_graph_def fuel ts
        .ok (.graph g, ts)
      else
        .error (.parse ("Expected \x27type\x27 or \x27graph\x27, got "
          ++ Emitter.pyStrRepr kw.value) (some kw))

/-- `Parser.parse_type_def`. -/
def parse_type_def : Nat → List Token → Except PError (TypeDef × List Token)
  | 0, _ => .error .fuel
  | Nat.succ fuel, ts => do
      let (name, ts) ← expectT ts .ident none
      let (te, ts) ← parse_type_expr fuel ts
      let (_, ts) ← expectT ts .rparen none
      .ok (⟨name.value, te⟩, ts)

/-- `Parser.parse_graph_def`. -/
def parse_graph_def : Nat → List Token → Except PError (Graph × List Token)
  | 0, _ => .error .fuel
  | Nat.succ fuel, ts => do
      let (name, ts) ← expectT ts .ident none
      let (inputs, ts) ← parse_input_decl fuel ts
      let (output, ts) ← parse_output_decl fuel ts
      let (effects, ts) ← parse_effect_decl fuel ts
      let t ← peekT ts
      let (contract, ts) ←
        if t.type == .lparen && lookaheadKeyword ts "contract" then do
          let (c, ts) ← parse_contract_decl fuel ts
          pure (some c, ts)
        else
          pure ((none : Option Contract), ts)
      let (body, ts) ← parse_body_decl fuel ts
      let (_, ts) ← expectT ts .rparen none
      .ok (⟨name.value, inputs, output, effects, contract, body⟩, ts)

/-- `Parser.parse_input_decl`. -/
def parse_input_decl : Nat → List Token → Except PError (List (String × TypeExpr) × List Token)
  | 0, _ => .error .fuel
  | Nat.succ fuel, ts => do
      let (_, ts) ← expectT ts .lparen none
      let (_, ts) ← expectT ts .ident (some "input")
      let (params, ts) ← parse_params fuel ts
      let (_, ts) ← expectT ts .rparen none
      .ok (params, ts)

/-- Loop of `parse_input_decl`. -/
def parse_params : Nat → List Token → Except PError (List (String × TypeExpr) × List Token)
  | 0, _ => .error .fuel
  | Nat.succ fuel, ts => do
      let t ← peekT ts
      if t.type == .rparen then .ok ([], ts)
      else do
        let (p, ts) ← parse_param fuel ts
        let (ps, ts) ← parse_params fuel ts
        .ok (p :: ps, ts)

/-- `Parser.parse_param`. -/
def parse_param : Nat → List Token → Except PError ((String × TypeExpr) × List Token)
  | 0, _ => .error .fuel
  | Nat.succ fuel, ts => do
      let (_, ts) ← expectT ts .lparen none
      let (name, ts) ← expectT ts .ident none
      let (te, ts) ← parse_type_expr fuel ts
      let (_, ts) ← expectT ts .rparen none
      .ok ((name.value, te), ts)

/-- `Parser.parse_output_decl`. -/
def parse_output_decl : Nat → List Token → Except PError (TypeExpr × List Token)
  | 0, _ => .error .fuel
  | Nat.succ fuel, ts => do
      let (_, ts) ← expectT ts .lparen none
      let (_, ts) ← expectT ts .ident (some "output")
      let (te, ts) ← parse_type_expr fuel ts
      let (_, ts) ← expectT ts .rparen none
      .ok (te, ts)

/-- `Parser.parse_effect_decl`. -/
def parse_effect_decl : Nat → List Token → Except PError (List String × List Token)
  | 0, _ => .error .fuel
  | Nat.succ fuel, ts => do
      let (_, ts) ← expectT ts .lparen none
      let (_, ts) ← expectT ts .ident (some "effect")
      let (effs, ts) ← parse_effect_names fuel ts
      let (_, ts) ← expectT ts .rparen none
      .ok (effs, ts)

/-- Loop of `parse_effect_decl`. -/
def parse_effect_names : Nat → List Token → Except PError (List String × List Token)
  | 0, _ => .error .fuel
  | Nat.succ fuel, ts => do
      let t ← peekT ts
      if t.type == .rparen then .ok ([], ts)
      else do
        let (tok, ts) ← expectT ts .ident none
        let (rest, ts) ← parse_effect_names fuel ts
        .ok (tok.value :: rest, ts)

/-- `Parser.parse_contract_decl`. -/
def parse_contract_decl : Nat → List Token → Except PError (Contract × List Token)
  | 0, _ => .error .fuel
  | Nat.succ fuel, ts => do
      let (_, ts) ← expectT ts .lparen none
      let (_, ts) ← expectT ts .ident (some "contract")
      let ((pres, posts), ts) ← parse_contract_items fuel ts
      let (_, ts) ← expectT ts .rparen none
      .ok (⟨pres, posts⟩, ts)

/-- Loop of `parse_contract_decl`: `(pre e)` / `(post e)` items. -/
def parse_contract_items : Nat → List Token →
    Except PError ((List Expr × List Expr) × List Token)
  | 0, _ => .error .fuel
  | Nat.succ fuel, ts => do
      let t ← peekT ts
      if t.type == .rparen then .ok (([], []), ts)
      else do
        let (_, ts) ← expectT ts .lparen none
        let (kind, ts) ← expectT ts .ident none
        if kind.value == "pre" then do
          let (e, ts) ← parse_expr fuel ts
          let (_, ts) ← expectT ts .rparen none
          let ((ps, qs), ts) ← parse_contract_items fuel ts
          .ok ((e :: ps, qs), ts)
        else if kind.value == "post" then do
          let (e, ts) ← parse_expr fuel ts
          let (_, ts) ← expectT ts .rparen none
          let ((ps, qs), ts) ← parse_contract_items fuel ts
          .ok ((ps, e :: qs), ts)
        else
          .error (.parse ("Expected \x27pre\x27 or \x27post\x27, got "
            ++ Emitter.pyStrRepr kind.value) none)

/-- `Parser.parse_body_decl`. -/
def parse_body_decl : Nat → List Token → Except PError (Expr × List Token)
  | 0, _ => .error .fuel
  | Nat.succ fuel, ts => do
      let (_, ts) ← expectT ts .lparen none
      let (_, ts) ← expectT ts .ident (some "body")
      let (e, ts) ← parse_expr fuel ts
      let (_, ts) ← expectT ts .rparen none
      .ok (e, ts)

/-- `Parser.parse_type_expr`. -/
def parse_type_expr : Nat → List Token → Except PError (TypeExpr × List Token)
  | 0, _ => .error .fuel
  | Nat.succ fuel, ts => do
      let tok ← peekT ts
      if tok.type == .ident then do
        let (_, ts) ← advanceT ts
        if PRIMITIVE_TYPES.contains tok.value then .ok (.primitive tok.value, ts)
        else .ok (.named tok.value, ts)
      else if tok.type == .lparen then do
        let (_, ts) ← advanceT ts
        let kw ← peekT ts
        if kw.value == "List" then do
          let (_, ts) ← advanceT ts
          let (elem, ts) ← parse_type_expr fuel ts
          let (_, ts) ← expectT ts .rparen none
          .ok (.listT elem, ts)
        else if kw.value == "Option" then do
          let (_, ts) ← advanceT ts
          let (elem, ts) ← parse_type_expr fuel ts
          let (_, ts) ← expectT ts .rparen none
          .ok (.option elem, ts)
        else if kw.value == "Tuple" then do
          let (_, ts) ← advanceT ts
          let (elems, ts) ← parse_type_list fuel ts
          let (_, ts) ← expectT ts .rparen none
          .ok (.tuple elems, ts)
        else if kw.value == "Record" then do
          let (_, ts) ← advanceT ts
          let (fields, ts) ← parse_record_type_fields fuel ts
          let (_, ts) ← expectT ts .rparen none
          .ok (.record fields, ts)
        else if kw.value == "->" then do
          let (_, ts) ← advanceT ts
          let (param, ts) ← parse_type_expr fuel ts
          let (ret, ts) ← parse_type_expr fuel ts
          let (_, ts) ← expectT ts .rparen none
          .ok (.func param ret, ts)
        else if kw.value == "Enum" then do
          let (_, ts) ← advanceT ts
          let (variants, ts) ← parse_enum_variants fuel ts
          let (_, ts) ← expectT ts .rparen none
          .ok (.enum variants, ts)
        else
          .error (.parse ("Unknown compound type: " ++ Emitter.pyStrRepr kw.value) (some kw))
      else
        .error (.parse ("Expected type expression, got " ++ Emitter.pyStrRepr tok.value)
          (some tok))

/-- Loop of the `Tuple` production. -/
def parse_type_list : Nat → List Token → Except PError (List TypeExpr × List Token)
  | 0, _ => .error .fuel
  | Nat.succ fuel, ts => do
      let t ← peekT ts
      if t.type == .rparen then .ok ([], ts)
      else do
        let (te, ts) ← parse_type_expr fuel ts
        let (rest, ts) ← parse_type_list fuel ts
        .ok (te :: rest, ts)

/-- Loop of the `Record` type production. -/
def parse_record_type_fields : Nat → List Token →
    Except PError (List (String × TypeExpr) × List Token)
  | 0, _ => .error .fuel
  | Nat.succ fuel, ts => do
      let t ← peekT ts
      if t.type == .rparen then .ok ([], ts)
      else do
        let (_, ts) ← expectT ts .lparen none
        let (fname, ts) ← expectT ts .ident none
        let (ftype, ts) ← parse_type_expr fuel ts
        let (_, ts) ← expectT ts .rparen none
        let (rest, ts) ← parse_record_type_fields fuel ts
        .ok ((fname.value, ftype) :: rest, ts)

/-- Loop of the `Enum` type production. -/
def parse_enum_variants : Nat → List Token →
    Except PError (List (String × List TypeExpr) × List Token)
  | 0, _ => .error .fuel
  | Nat.succ fuel, ts => do
      let t ← peekT ts
      if t.type == .rparen then .ok ([], ts)
      else do
        let (_, ts) ← expectT ts .lparen none
        let (vname, ts) ← expectT ts .ident none
        let (vtypes, ts) ← parse_type_list fuel ts
        let (_, ts) ← expectT ts .rparen none
        let (rest, ts) ← parse_enum_variants fuel ts
        .ok ((vname.value, vtypes) :: rest, ts)

/-- `Parser.parse_expr`. -/
def parse_expr : Nat → List Token → Except PError (Expr × List Token)
  | 0, _ => .error .fuel
  | Nat.succ fuel, ts => do
      let tok ← peekT ts
      if tok.type == .int then do
        let (_, ts) ← advanceT ts
        .ok (.lit (.int (strToInt tok.value)), ts)
      else if tok.type == .float then do
        let (_, ts) ← advanceT ts
        -- the float's numeric value is kept as its printed form
        .ok (.lit (.float tok.value), ts)
      else if tok.type == .string then do
        let (_, ts) ← advanceT ts
        .ok (.lit (.str tok.value), ts)
      else if tok.type == .ident then do
        let (_, ts) ← advanceT ts
        if tok.value == "true" then .ok (.lit (.bool true), ts)
        else if tok.value == "false" then .ok (.lit (.bool false), ts)
        else if tok.value == "unit" then .ok (.lit .unit, ts)
        else if tok.value == "none" then .ok (.noneE, ts)
        else if tok.value == "result" then .ok (.ident "result", ts)
        else .ok (.ident tok.value, ts)
      else if tok.type == .lparen then
        parse_sexpr fuel ts
      else
        .error (.parse ("Unexpected token: " ++ Emitter.pyStrRepr tok.value) (some tok))

/-- `Parser.parse_sexpr`: dispatch on the head keyword. -/
def parse_sexpr : Nat → List Token → Except PError (Expr × List Token)
  | 0, _ => .error .fuel
  | Nat.succ fuel, ts => do
      let (_, ts) ← expectT ts .lparen none
      let head ← peekT ts
      if head.type ≠ .ident then
        .error (.parse ("Expected identifier at head of s-expression, got "
          ++ Emitter.pyStrRepr head.value) (some head))
      else if head.value == "let" then parse_let fuel ts
      else if head.value == "if" then parse_if fuel ts
      else if head.value == "match" then parse_match fuel ts
      else if head.value == "lambda" then parse_lambda fuel ts
      else if head.value == "pipe" then parse_pipe fuel ts
      else if head.value == "do" then parse_do fuel ts
      else if head.value == "call" then parse_call fuel ts
      else if head.value == "list" then parse_list fuel ts
      else if head.value == "record" then parse_record fuel ts
      else if head.value == "get" then parse_get fuel ts
      else if head.value == "some" then parse_some fuel ts
      else if head.value == "try" then parse_try fuel ts
      else if head.value == "error" then parse_error_form fuel ts
      else if PARSER_OPERATORS.contains head.value then parse_op fuel ts
      else if PARSER_BUILTINS.contains head.value then parse_builtin fuel ts
      else parse_implicit_call fuel ts

/-- `Parser._parse_let` (body optional; a body-less let gets a unit literal
body, resolved later by `_chain_lets`). -/
def parse_let : Nat → List Token → Except PError (Expr × List Token)
  | 0, _ => .error .fuel
  | Nat.succ fuel, ts => do
      let (_, ts) ← expectT ts .ident (some "let")
      let (name, ts) ← expectT ts .ident none
      let (value, ts) ← parse_expr fuel ts
      let t ← peekT ts
      if t.type == .rparen then do
        let (_, ts) ← expectT ts .rparen none
        .ok (.letE name.value value (.lit .unit), ts)
      else do
        let (body, ts) ← parse_expr fuel ts
        let (_, ts) ← expectT ts .rparen none
        .ok (.letE name.value value body, ts)

/-- `Parser._parse_if`. -/
def parse_if : Nat → List Token → Except PError (Expr × List Token)
  | 0, _ => .error .fuel
  | Nat.succ fuel, ts => do
      let (_, ts) ← expectT ts .ident (some "if")
      let (c, ts) ← parse_expr fuel ts
      let (t, ts) ← parse_expr fuel ts
      let (e, ts) ← parse_expr fuel ts
      let (_, ts) ← expectT ts .rparen none
      .ok (.ifE c t e, ts)

/-- `Parser._parse_match`. -/
def parse_match : Nat → List Token → Except PError (Expr × List Token)
  | 0, _ => .error .fuel
  | Nat.succ fuel, ts => do
      let (_, ts) ← expectT ts .ident (some "match")
      let (target, ts) ← parse_expr fuel ts
      let (arms, ts) ← parse_match_arms fuel ts
      let (_, ts) ← expectT ts .rparen none
      .ok (.matchE target arms, ts)

/-- Loop of `_parse_match`. -/
def parse_match_arms : Nat → List Token →
    Except PError (List (Pattern × Expr) × List Token)
  | 0, _ => .error .fuel
  | Nat.succ fuel, ts => do
      let t ← peekT ts
      if t.type == .rparen then .ok ([], ts)
      else do
        let (_, ts) ← expectT ts .lparen none
        let (pat, ts) ← parse_pattern fuel ts
        let (body, ts) ← parse_expr fuel ts
        let (_, ts) ← expectT ts .rparen none
        let (rest, ts) ← parse_match_arms fuel ts
        .ok ((pat, body) :: rest, ts)

/-- `Parser.parse_pattern`. -/
def parse_pattern : Nat → List Token → Except PError (Pattern × List Token)
  | 0, _ => .error .fuel
  | Nat.succ fuel, ts => do
      let tok ← peekT ts
      if tok.type == .ident then do
        let (_, ts) ← advanceT ts
        if tok.value == "_" then .ok (.wildcard, ts)
        else if tok.value == "true" then .ok (.litP (.bool true), ts)
        else if tok.value == "false" then .ok (.litP (.bool false), ts)
        else .ok (.identP tok.value, ts)
      else if tok.type == .int then do
        let (_, ts) ← advanceT ts
        .ok (.litP (.int (strToInt tok.value)), ts)
      else if tok.type == .float then do
        let (_, ts) ← advanceT ts
        .ok (.litP (.float tok.value), ts)
      else if tok.type == .string then do
        let (_, ts) ← advanceT ts
        .ok (.litP (.str tok.value), ts)
      else if tok.type == .lparen then do
        let (_, ts) ← advanceT ts
        let (name, ts) ← expectT ts .ident none
        let (args, ts) ← parse_pattern_list fuel ts
        let (_, ts) ← expectT ts .rparen none
        .ok (.constructor name.value args, ts)
      else
        .error (.parse ("Expected pattern, got " ++ Emitter.pyStrRepr tok.value) (some tok))

/-- Loop of the constructor-pattern production. -/
def parse_pattern_list : Nat → List Token → Except PError (List Pattern × List Token)
  | 0, _ => .error .fuel
  | Nat.succ fuel, ts => do
      let t ← peekT ts
      if t.type == .rparen then .ok ([], ts)
      else do
        let (p, ts) ← parse_pattern fuel ts
        let (ps, ts) ← parse_pattern_list fuel ts
        .ok (p :: ps, ts)

/-- `Parser._parse_lambda`. -/
def parse_lambda : Nat → List Token → Except PError (Expr × List Token)
  | 0, _ => .error .fuel
  | Nat.succ fuel, ts => do
      let (_, ts) ← expectT ts .ident (some "lambda")
      let (_, ts) ← expectT ts .lparen none
      let (params, ts) ← parse_lambda_params fuel ts
      let (_, ts) ← expectT ts .rparen none
      let (body, ts) ← parse_expr fuel ts
      let (_, ts) ← expectT ts .rparen none
      .ok (.lam params body, ts)

/-- Loop of `_parse_lambda`: bare names or `(name type)` pairs. -/
def parse_lambda_params : Nat → List Token →
    Except PError (List (String × Option TypeExpr) × List Token)
  | 0, _ => .error .fuel
  | Nat.succ fuel, ts => do
      let t ← peekT ts
      if t.type == .rparen then .ok ([], ts)
      else if t.type == .lparen then do
        let ((n, te), ts) ← parse_param fuel ts
        let (rest, ts) ← parse_lambda_params fuel ts
        .ok ((n, some te) :: rest, ts)
      else do
        let (name, ts) ← expectT ts .ident none
        let (rest, ts) ← parse_lambda_params fuel ts
        .ok ((name.value, none) :: rest, ts)

/-- `Parser._parse_pipe`. -/
def parse_pipe : Nat → List Token → Except PError (Expr × List Token)
  | 0, _ => .error .fuel
  | Nat.succ fuel, ts => do
      let (_, ts) ← expectT ts .ident (some "pipe")
      let (value, ts) ← parse_expr fuel ts
      let (steps, ts) ← parse_expr_list fuel ts
      let (_, ts) ← expectT ts .rparen none
      .ok (.pipe value steps, ts)

/-- `Parser._parse_do` (applies `_chain_lets` to the parsed items). -/
def parse_do : Nat → List Token → Except PError (Expr × List Token)
  | 0, _ => .error .fuel
  | Nat.succ fuel, ts => do
      let (_, ts) ← expectT ts .ident (some "do")
      let (exprs, ts) ← parse_expr_list fuel ts
      let (_, ts) ← expectT ts .rparen none
      .ok (.doE (chain_lets exprs), ts)

/-- `Parser._parse_op`. -/
def parse_op : Nat → List Token → Except PError (Expr × List Token)
  | 0, _ => .error .fuel
  | Nat.succ fuel, ts => do
      let (opTok, ts) ← advanceT ts
      let (args, ts) ← parse_expr_list fuel ts
      let (_, ts) ← expectT ts .rparen none
      .ok (.op opTok.value args, ts)

/-- `Parser._parse_call`. -/
def parse_call : Nat → List Token → Except PError (Expr × List Token)
  | 0, _ => .error .fuel
  | Nat.succ fuel, ts => do
      let (_, ts) ← expectT ts .ident (some "call")
      let (func, ts) ← expectT ts .ident none
      let (args, ts) ← parse_expr_list fuel ts
      let (_, ts) ← expectT ts .rparen none
      .ok (.call func.value args, ts)

/-- `Parser._parse_implicit_call`: unrecognized head becomes a call. -/
def parse_implicit_call : Nat → List Token → Except PError (Expr × List Token)
  | 0, _ => .error .fuel
  | Nat.succ fuel, ts => do
      let (func, ts) ← advanceT ts
      let (args, ts) ← parse_expr_list fuel ts
      let (_, ts) ← expectT ts .rparen none
      .ok (.call func.value args, ts)

/-- `Parser._parse_list`. -/
def parse_list : Nat → List Token → Except PError (Expr × List Token)
  | 0, _ => .error .fuel
  | Nat.succ fuel, ts => do
      let (_, ts) ← expectT ts .ident (some "list")
      let (elems, ts) ← parse_expr_list fuel ts
      let (_, ts) ← expectT ts .rparen none
      .ok (.listE elems, ts)

/-- `Parser._parse_record`. -/
def parse_record : Nat → List Token → Except PError (Expr × List Token)
  | 0, _ => .error .fuel
  | Nat.succ fuel, ts => do
      let (_, ts) ← expectT ts .ident (some "record")
      let (tname, ts) ← expectT ts .ident none
      let (fields, ts) ← parse_record_fields fuel ts
      let (_, ts) ← expectT ts .rparen none
      .ok (.record tname.value fields, ts)

/-- Loop of `_parse_record`. -/
def parse_record_fields : Nat → List Token →
    Except PError (List (String × Expr) × List Token)
  | 0, _ => .error .fuel
  | Nat.succ fuel, ts => do
      let t ← peekT ts
      if t.type == .rparen then .ok ([], ts)
      else do
        let (_, ts) ← expectT ts .lparen none
        let (fname, ts) ← expectT ts .ident none
        let (fval, ts) ← parse_expr fuel ts
        let (_, ts) ← expectT ts .rparen none
        let (rest, ts) ← parse_record_fields fuel ts
        .ok ((fname.value, fval) :: rest, ts)

/-- `Parser._parse_get`. -/
def parse_get : Nat → List Token → Except PError (Expr × List Token)
  | 0, _ => .error .fuel
  | Nat.succ fuel, ts => do
      let (_, ts) ← expectT ts .ident (some "get")
      let (obj, ts) ← parse_expr fuel ts
      let (field, ts) ← expectT ts .ident none
      let (_, ts) ← expectT ts .rparen none
      .ok (.getE obj field.value, ts)

/-- `Parser._parse_some`. -/
def parse_some : Nat → List Token → Except PError (Expr × List Token)
  | 0, _ => .error .fuel
  | Nat.succ fuel, ts => do
      let (_, ts) ← expectT ts .ident (some "some")
      let (value, ts) ← parse_expr fuel ts
      let (_, ts) ← expectT ts .rparen none
      .ok (.someE value, ts)

/-- `Parser._parse_try`. -/
def parse_try : Nat → List Token → Except PError (Expr × List Token)
  | 0, _ => .error .fuel
  | Nat.succ fuel, ts => do
      let (_, ts) ← expectT ts .ident (some "try")
      let (body, ts) ← parse_expr fuel ts
      let (_, ts) ← expectT ts .lparen none
      let (_, ts) ← expectT ts .ident (some "catch")
      let (cvar, ts) ← expectT ts .ident none
      let (cbody, ts) ← parse_expr fuel ts
      let (_, ts) ← expectT ts .rparen none
      let (_, ts) ← expectT ts .rparen none
      .ok (.tryE body cvar.value cbody, ts)

/-- `Parser._parse_error`. -/
def parse_error_form : Nat → List Token → Except PError (Expr × List Token)
  | 0, _ => .error .fuel
  | Nat.succ fuel, ts => do
      let (_, ts) ← expectT ts .ident (some "error")
      let (msg, ts) ← parse_expr fuel ts
      let (_, ts) ← expectT ts .rparen none
      .ok (.errorE msg, ts)

/-- `Parser._parse_builtin`. -/
def parse_builtin : Nat → List Token → Except PError (Expr × List Token)
  | 0, _ => .error .fuel
  | Nat.succ fuel, ts => do
      let (name, ts) ← advanceT ts
      let (args, ts) ← parse_expr_list fuel ts
      let (_, ts) ← expectT ts .rparen none
      .ok (.builtin name.value args, ts)

/-- Shared argument loop: expressions until the closing paren (the identical
`while not self.at_rparen()` loops of the argument-taking productions). -/
def parse_expr_list : Nat → List Token → Except PError (List Expr × List Token)
  | 0, _ => .error .fuel
  | Nat.succ fuel, ts => do
      let t ← peekT ts
      if t.type == .rparen then .ok ([], ts)
      else do
        let (e, ts) ← parse_expr fuel ts
        let (es, ts) ← parse_expr_list fuel ts
        .ok (e :: es, ts)

end

/-- Compile-entry failure: a lex error or a parse error. -/
inductive CompileError where
  | lex (e : LexError)
  | parseE (e : PError)
deriving DecidableEq

/-- `parse(source)`: tokenize, parse the `(program ...)` form, then require
the next token to be end-of-input. -/
def parse (source : String) : Except CompileError Program :=
  match tokenize source with
  | .error e => .error (.lex e)
  | .ok tokens =>
    match parse_program (tokens.length + 1) tokens with
    | .error e => .error (.parseE e)
    | .ok (program, rest) =>
      match peekT rest with
      | .error e => .error (.parseE e)
      | .ok t =>
        if t.type == .eof then .ok program
        else .error (.parseE (.parse "Unexpected tokens after program" (some t)))

end Starshot.Parsing

namespace Starshot.Checkers

/-! ## Contract checker (`starshot/compiler/contract_checker.py`),
effect checker (`starshot/compiler/effect_checker.py`) and the
`_infer_op` fragment of the type checker. -/

open Starshot

/-- Ascending insertion keeping the order Python's `sorted` produces on
distinct strings (code-point lexicographic). -/
def insertStr (x : String) : List String → List String
  | [] => [x]
  | y :: ys => if PySem.pyStrLt y x then y :: insertStr x ys else x :: y :: ys

/-- Remove later duplicates (set formation) keeping first occurrences. -/
def dedupStrs : List String → List String
  | [] => []
  | x :: xs => x :: (dedupStrs xs).filter (· ≠ x)

/-- `sorted(<set of strings>)`: unique elements in ascending order, used when
error messages list names. -/
def sortedSet (l : List String) : List String :=
  (dedupStrs l).foldl (fun acc x => insertStr x acc) []

mutual

/-- `ContractChecker._free_vars`: identifiers are collected only at the top
level and through `OpExpr`/`BuiltinExpr`/`CallExpr` argument lists; every
other expression shape falls through to the empty set.  The Python set is
modelled by a list with membership semantics. -/
def free_vars : Expr → List String
  | .ident n => [n]
  | .op _ args => free_vars_list args
  | .builtin _ args => free_vars_list args
  | .call _ args => free_vars_list args
  | _ => []

/-- Union over an argument list. -/
def free_vars_list : List Expr → List String
  | [] => []
  | e :: es => free_vars e ++ free_vars_list es

end

/-- One precondition check of `_check_contract`: an error message exactly when
some collected free variable is not an input parameter name. -/
def pre_errors (gname : String) (params : List String) : Nat → List Expr → List String
  | _, [] => []
  | i, pre :: rest =>
      let invalid := (free_vars pre).filter (fun v => !params.contains v)
      let here :=
        if invalid.isEmpty then []
        else ["Graph \x27" ++ gname ++ "\x27 precondition " ++ toString (i + 1)
          ++ " references undefined variables: "
          ++ String.intercalate ", " (sortedSet invalid)]
      here ++ pre_errors gname params (i + 1) rest

/-- One postcondition check of `_check_contract`: as for preconditions but
with `result` also in scope. -/
def post_errors (gname : String) (params : List String) : Nat → List Expr → List String
  | _, [] => []
  | i, post :: rest =>
      let valid := params ++ ["result"]
      let invalid := (free_vars post).filter (fun v => !valid.contains v)
      let here :=
        if invalid.isEmpty then []
        else ["Graph \x27" ++ gname ++ "\x27 postcondition " ++ toString (i + 1)
          ++ " references undefined variables: "
          ++ String.intercalate ", " (sortedSet invalid)]
      here ++ post_errors gname params (i + 1) rest

/-- `ContractChecker._check_contract` for one graph carrying a contract. -/
def check_contract (g : Graph) (c : Contract) : List String :=
  let params := g.inputs.map Prod.fst
  pre_errors g.name params 0 c.preconditions ++ post_errors g.name params 0 c.postconditions

/-- `check_contracts(program)`: the graphs with contracts, in order. -/
def check_contracts (p : Program) : List String :=
  (p.definitions.map fun d =>
    match d with
    | .graph g =>
        match g.contract with
        | some c => check_contract g c
        | none => []
    | .typeDef _ => []).flatten

/-! ### Effect checker -/

/-- `IO_BUILTINS`. -/
def IO_BUILTINS : List String := ["print", "read-line"]

/-- `FAIL_BUILTINS`. -/
def FAIL_BUILTINS : List String := ["error"]

/-- The `graph_effects` registry: later registrations overwrite earlier ones
(Python dict assignment), modelled by reversing before first-match lookup. -/
def graph_effects (p : Program) : List (String × List String) :=
  (p.graphs.map fun g => (g.name, g.effects)).reverse

/-- Registry lookup. -/
def lookupEffects (ge : List (String × List String)) (n : String) : Option (List String) :=
  match ge with
  | [] => none
  | (k, v) :: rest => if k == n then some v else lookupEffects rest n

mutual

/-- `EffectChecker._collect_effects`: effects required by an expression (set
modelled as a list with membership semantics).  A call to a registered graph
contributes the callee's declared effects minus `pure`; `print`/`read-line`
contribute `io` and a builtin node named `error` contributes `fail`; the
compound forms dispatch to their sub-expressions.  The Python `isinstance`
chain has no branch for `SomeExpr`, `SetExpr` or `ErrorExpr`, so those nodes
(and everything beneath them) contribute nothing. -/
def collect_effects (ge : List (String × List String)) : Expr → List String
  | .call f args =>
      (match lookupEffects ge f with
        | some eff => eff.filter (· ≠ "pure")
        | none => []) ++ collect_effects_list ge args
  | .builtin n args =>
      (if IO_BUILTINS.contains n then ["io"] else [])
        ++ (if FAIL_BUILTINS.contains n then ["fail"] else [])
        ++ collect_effects_list ge args
  | .letE _ v b => collect_effects ge v ++ collect_effects ge b
  | .ifE c t e => collect_effects ge c ++ collect_effects ge t ++ collect_effects ge e
  | .matchE t arms => collect_effects ge t ++ collect_effects_arms ge arms
  | .lam _ b => collect_effects ge b
  | .pipe v steps => collect_effects ge v ++ collect_effects_list ge steps
  | .doE es => collect_effects_list ge es
  | .op _ args => collect_effects_list ge args
  | .listE es => collect_effects_list ge es
  | .record _ fields => collect_effects_fields ge fields
  | .getE obj _ => collect_effects ge obj
  | .tryE b _ cb => collect_effects ge b ++ collect_effects ge cb
  | .lit _ => []
  | .ident _ => []
  | .noneE => []
  | .someE _ => []   -- no isinstance branch: the wrapped value is not visited
  | .setE _ _ _ => []  -- no isinstance branch
  | .errorE _ => []    -- no isinstance branch (FAIL_BUILTINS never fires here)

/-- Union over a sub-expression list. -/
def collect_effects_list (ge : List (String × List String)) : List Expr → List String
  | [] => []
  | e :: es => collect_effects ge e ++ collect_effects_list ge es

/-- Union over match-arm bodies. -/
def collect_effects_arms (ge : List (String × List String)) :
    List (Pattern × Expr) → List String
  | [] => []
  | (_, b) :: rest => collect_effects ge b ++ collect_effects_arms ge rest

/-- Union over record-field values. -/
def collect_effects_fields (ge : List (String × List String)) :
    List (String × Expr) → List String
  | [] => []
  | (_, v) :: rest => collect_effects ge v ++ collect_effects_fields ge rest

end

/-- `EffectChecker._check_graph`: a graph declared exactly `{pure}` errs when
its body requires anything beyond `pure`; any other declaration errs when the
required effects are not covered. -/
def check_graph (ge : List (String × List String)) (g : Graph) : List String :=
  let declared := g.effects
  let required := collect_effects ge g.body
  if declared.contains "pure" && declared.all (· == "pure") then
    let residue := required.filter (· ≠ "pure")
    if residue.isEmpty then []
    else ["Graph \x27" ++ g.name ++ "\x27 is declared pure but requires effects: "
      ++ String.intercalate ", " (sortedSet residue)]
  else
    let missing := required.filter (fun e => !declared.contains e && e ≠ "pure")
    if missing.isEmpty then []
    else ["Graph \x27" ++ g.name ++ "\x27 uses effects "
      ++ String.intercalate ", " (sortedSet missing)
      ++ " not in its declaration [" ++ String.intercalate ", " (sortedSet declared) ++ "]"]

/-- `check_effects(program)`. -/
def check_effects (p : Program) : List String :=
  let ge := graph_effects p
  (p.graphs.map (check_graph ge)).flatten

/-! ### `TypeChecker._infer_op` (takes the already-inferred argument types,
which the source obtains by calling `self._infer` on each argument) -/

mutual

/-- `TypeChecker._type_str`. -/
def type_str : TypeExpr → String
  | .primitive n => n
  | .named n => n
  | .listT e => "(List " ++ type_str e ++ ")"
  | .option e => "(Option " ++ type_str e ++ ")"
  | .func p r => "(-> " ++ type_str p ++ " " ++ type_str r ++ ")"
  | .record fields => "(Record " ++ String.intercalate " " (type_str_fields fields) ++ ")"
  | .enum _ => "(Enum ...)"
  | .tuple es => "(Tuple " ++ String.intercalate " " (type_str_list es) ++ ")"

/-- Record-field rendering for `_type_str`. -/
def type_str_fields : List (String × TypeExpr) → List String
  | [] => []
  | (f, ft) :: rest => ("(" ++ f ++ " " ++ type_str ft ++ ")") :: type_str_fields rest

/-- Tuple-component rendering for `_type_str`. -/
def type_str_list : List TypeExpr → List String
  | [] => []
  | t :: rest => type_str t :: type_str_list rest

end

mutual

/-- `_types_equal`: same variant required (`type(a) != type(b)` short-cut),
then structural comparison; record and enum shapes fall through leniently to
`True`. -/
def types_equal : TypeExpr → TypeExpr → Bool
  | .primitive a, .primitive b => a == b
  | .named a, .named b => a == b
  | .listT a, .listT b => types_equal a b
  | .option a, .option b => types_equal a b
  | .func p1 r1, .func p2 r2 => types_equal p1 p2 && types_equal r1 r2
  | .tuple as_, .tuple bs => as_.length == bs.length && types_equal_list as_ bs
  | .record _, .record _ => true
  | .enum _, .enum _ => true
  | _, _ => false

/-- Pairwise structural comparison for tuple components. -/
def types_equal_list : List TypeExpr → List TypeExpr → Bool
  | [], [] => true
  | a :: as_, b :: bs => types_equal a b && types_equal_list as_ bs
  | _, _ => true  -- zip stops at the shorter list; lengths were checked

end

/-- `TypeChecker._resolve` against the program's type-definition registry. -/
def resolve (tds : List (String × TypeExpr)) : TypeExpr → TypeExpr
  | .named n =>
      match tds.lookup n with
      | some te => te
      | none => .named n
  | t => t

/-- `TypeChecker._compatible`: resolve named types, allow the `Int → Float`
widening, else structural equality. -/
def compatible (tds : List (String × TypeExpr)) (actual expected : TypeExpr) : Bool :=
  let actual := resolve tds actual
  let expected := resolve tds expected
  match actual, expected with
  | .primitive "Int", .primitive "Float" => true
  | a, e => types_equal a e

/-- `_infer_op` on the pre-inferred argument types (the source obtains them
by calling `self._infer` on each argument; `tds` is the registry `_resolve`
consults): arithmetic operators flag non-numeric primitive operands and
produce `Float` when any operand is `Float`, else `Int`; comparisons produce
`Bool`; `and`/`or` produce `Bool` flagging operands incompatible with `Bool`;
anything else is undetermined. -/
def infer_op (tds : List (String × TypeExpr)) (o : String)
    (arg_types : List (Option TypeExpr)) : Option TypeExpr × List String :=
  if ["+", "-", "*", "/", "%"].contains o then
    let has_float := arg_types.any fun t =>
      match t with
      | some (.primitive n) => n == "Float"
      | _ => false
    let errs := arg_types.filterMap fun t =>
      match t with
      | some (.primitive n) =>
          if n ≠ "Int" && n ≠ "Float" then
            some ("Arithmetic operator \x27" ++ o ++ "\x27 requires numeric types, got " ++ n)
          else none
      | _ => none
    (some (.primitive (if has_float then "Float" else "Int")), errs)
  else if ["==", "!=", "<", ">", "<=", ">="].contains o then
    (some (.primitive "Bool"), [])
  else if ["and", "or"].contains o then
    let errs := arg_types.filterMap fun t =>
      match t with
      | some te =>
          if !compatible tds te (.primitive "Bool") then
            some ("Boolean operator \x27" ++ o ++ "\x27 requires Bool, got " ++ type_str te)
          else none
      | none => none
    (some (.primitive "Bool"), errs)
  else
    (none, [])

end Starshot.Checkers

namespace Starshot.SpecSide

/-! ## Spec-side notions

Definitions in this namespace follow the specification's wording, not the
code: they give the independent meaning against which the code's behaviour
is compared (referenced identifiers, structural containment of
effect-contributing constructs, newline counting in unterminated strings). -/

open Starshot

/-- Wildcard/bind test used when stating which match arms are catch-alls. -/
def is_catchall : Pattern → Bool
  | .wildcard => true
  | .identP _ => true
  | _ => false

mutual

/-- Identifier occurrences of an expression, collected through *every*
construct — the spec's notion of an expression "referencing an identifier".
Binder names themselves are not occurrences.  (Used on contract conditions,
which the claims restrict to binder-free shapes, and on counterexamples whose
flagged identifier is bound nowhere.) -/
def identsOf : Expr → List String
  | .lit _ => []
  | .ident n => [n]
  | .letE _ v b => identsOf v ++ identsOf b
  | .ifE c t e => identsOf c ++ identsOf t ++ identsOf e
  | .matchE t arms => identsOf t ++ identsOf_arms arms
  | .lam _ b => identsOf b
  | .pipe v steps => identsOf v ++ identsOf_list steps
  | .doE es => identsOf_list es
  | .op _ args => identsOf_list args
  | .call _ args => identsOf_list args
  | .listE es => identsOf_list es
  | .record _ fields => identsOf_fields fields
  | .getE obj _ => identsOf obj
  | .setE obj _ v => identsOf obj ++ identsOf v
  | .builtin _ args => identsOf_list args
  | .someE v => identsOf v
  | .noneE => []
  | .tryE b _ cb => identsOf b ++ identsOf cb
  | .errorE m => identsOf m

/-- Occurrences in an expression list. -/
def identsOf_list : List Expr → List String
  | [] => []
  | e :: es => identsOf e ++ identsOf_list es

/-- Occurrences in match-arm bodies. -/
def identsOf_arms : List (Pattern × Expr) → List String
  | [] => []
  | (_, b) :: rest => identsOf b ++ identsOf_arms rest

/-- Occurrences in record-field values. -/
def identsOf_fields : List (String × Expr) → List String
  | [] => []
  | (_, v) :: rest => identsOf v ++ identsOf_fields rest

end

mutual

/-- The contract fragment the checker's free-variable collection actually
walks: identifiers, literals, and operator/builtin/call applications over the
same fragment. -/
def simple_cond : Expr → Bool
  | .ident _ => true
  | .lit _ => true
  | .op _ args => simple_cond_list args
  | .builtin _ args => simple_cond_list args
  | .call _ args => simple_cond_list args
  | _ => false

/-- Fragment check for argument lists. -/
def simple_cond_list : List Expr → Bool
  | [] => true
  | e :: es => simple_cond e && simple_cond_list es

end

/-- All contract conditions of a program lie in the simple fragment. -/
def contracts_simple (p : Program) : Bool :=
  p.graphs.all fun g =>
    match g.contract with
    | some c => simple_cond_list c.preconditions && simple_cond_list c.postconditions
    | none => true

/-- An expression node that by itself contributes an effect, per the spec:
a `print`/`read-line` builtin (io), an `error` builtin (fail) — which the
parser always represents as an `errorE` node — or a call to a graph whose
declared effects include something other than `pure`. -/
def effect_leaf (ge : List (String × List String)) : Expr → Bool
  | .builtin n _ =>
      Checkers.IO_BUILTINS.contains n || Checkers.FAIL_BUILTINS.contains n
  | .call f _ =>
      match Checkers.lookupEffects ge f with
      | some eff => !(eff.filter (· ≠ "pure")).isEmpty
      | none => false
  | .errorE _ => true
  | _ => false

mutual

/-- Structural containment (through *every* construct) of an
effect-contributing node — the spec's "the body structurally contains an
io- or fail-contributing construct". -/
def has_effect_source (ge : List (String × List String)) : Expr → Bool
  | .lit _ => false
  | .ident _ => false
  | .noneE => false
  | .letE _ v b => has_effect_source ge v || has_effect_source ge b
  | .ifE c t e => has_effect_source ge c || has_effect_source ge t || has_effect_source ge e
  | .matchE t arms => has_effect_source ge t || has_source_arms ge arms
  | .lam _ b => has_effect_source ge b
  | .pipe v steps => has_effect_source ge v || has_source_list ge steps
  | .doE es => has_source_list ge es
  | .op _ args => has_source_list ge args
  | .call f args => effect_leaf ge (.call f args) || has_source_list ge args
  | .listE es => has_source_list ge es
  | .record _ fields => has_source_fields ge fields
  | .getE obj _ => has_effect_source ge obj
  | .setE obj _ v => has_effect_source ge obj || has_effect_source ge v
  | .builtin n args => effect_leaf ge (.builtin n args) || has_source_list ge args
  | .someE v => has_effect_source ge v
  | .tryE b _ cb => has_effect_source ge b || has_effect_source ge cb
  | .errorE m => effect_leaf ge (.errorE m) || has_effect_source ge m

/-- Containment over an expression list. -/
def has_source_list (ge : List (String × List String)) : List Expr → Bool
  | [] => false
  | e :: es => has_effect_source ge e || has_source_list ge es

/-- Containment over match-arm bodies. -/
def has_source_arms (ge : List (String × List String)) : List (Pattern × Expr) → Bool
  | [] => false
  | (_, b) :: rest => has_effect_source ge b || has_source_arms ge rest

/-- Containment over record-field values. -/
def has_source_fields (ge : List (String × List String)) : List (String × Expr) → Bool
  | [] => false
  | (_, v) :: rest => has_effect_source ge v || has_source_fields ge rest

end

mutual

/-- No `SomeExpr`, `SetExpr` or `ErrorExpr` node anywhere — the constructs
whose subtrees `_collect_effects` never visits. -/
def avoids_skipped : Expr → Bool
  | .lit _ => true
  | .ident _ => true
  | .noneE => true
  | .letE _ v b => avoids_skipped v && avoids_skipped b
  | .ifE c t e => avoids_skipped c && avoids_skipped t && avoids_skipped e
  | .matchE t arms => avoids_skipped t && avoids_arms arms
  | .lam _ b => avoids_skipped b
  | .pipe v steps => avoids_skipped v && avoids_list steps
  | .doE es => avoids_list es
  | .op _ args => avoids_list args
  | .call _ args => avoids_list args
  | .listE es => avoids_list es
  | .record _ fields => avoids_fields fields
  | .getE obj _ => avoids_skipped obj
  | .setE _ _ _ => false
  | .builtin _ args => avoids_list args
  | .someE _ => false
  | .tryE b _ cb => avoids_skipped b && avoids_skipped cb
  | .errorE _ => false

/-- Avoidance over an expression list. -/
def avoids_list : List Expr → Bool
  | [] => true
  | e :: es => avoids_skipped e && avoids_list es

/-- Avoidance over match-arm bodies. -/
def avoids_arms : List (Pattern × Expr) → Bool
  | [] => true
  | (_, b) :: rest => avoids_skipped b && avoids_arms rest

/-- Avoidance over record-field values. -/
def avoids_fields : List (String × Expr) → Bool
  | [] => true
  | (_, v) :: rest => avoids_skipped v && avoids_fields rest

end

/-- String-scan content with no unescaped closing quote: such content makes
the literal unterminated. -/
def noClose : List Char → Bool
  | [] => true
  | c :: rest =>
    if c = '"' then false
    else if c = '\\' then
      match rest with
      | _ :: r2 => noClose r2
      | [] => true
    else noClose rest

/-- Literal newlines the string scan passes over (an escape pair hides the
character after the backslash, so `\` followed by a newline does not count —
mirroring how the lexer's line counter moves). -/
def unescapedNewlines : List Char → Nat
  | [] => 0
  | c :: rest =>
    if c = '\\' then
      match rest with
      | _ :: r2 => unescapedNewlines r2
      | [] => 0
    else if c = '\n' then 1 + unescapedNewlines rest
    else unescapedNewlines rest

end Starshot.SpecSide

namespace Starshot.Helpers

/-! ## Shared proof helpers: string-append folding and unfolding equations
for the larger emitter definitions (each equation holds by `rfl`). -/

open Starshot Starshot.Emitter

/-- Fold two adjacent string literals inside a right-associated append
chain. -/
theorem lit_fold (a b c : String) (h : a ++ b = c) (X : String) :
    a ++ (b ++ X) = c ++ X := by
  rw [← String.append_assoc, h]

/-- Unfolding equation: builtin application. -/
theorem emit_expr_builtin (n : String) (args : List Expr) :
    emit_expr (.builtin n args) = builtin_expr n args (emit_args args) := rfl

/-- Unfolding equation: argument-list compilation. -/
theorem emit_args_cons (e : Expr) (es : List Expr) :
    emit_args (e :: es) = emit_expr e :: emit_args es := rfl

/-- The three-argument `reduce` branch of `_builtin_expr` as one equation. -/
theorem builtin_expr_reduce3 (r0 r1 r2 : Expr) (args : List String) :
    builtin_expr "reduce" [r0, r1, r2] args =
      if isLambda r0 then
        "functools.reduce(" ++ argD args 0 ++ ", " ++ argD args 2 ++ ", " ++ argD args 1 ++ ")"
      else if isLambda r1 then
        "functools.reduce(" ++ argD args 1 ++ ", " ++ argD args 0 ++ ", " ++ argD args 2 ++ ")"
      else if isLambda r2 then
        "functools.reduce(" ++ argD args 2 ++ ", " ++ argD args 0 ++ ", " ++ argD args 1 ++ ")"
      else
        "functools.reduce(" ++ argD args 0 ++ ", " ++ argD args 2 ++ ", " ++ argD args 1 ++ ")" :=
  rfl

/-- The builtin-step branch of `_apply_pipe_step` as one equation. -/
theorem apply_pipe_step_builtin (n : String) (args : List Expr) (cs : String)
    (ca : List String) (pv : String) :
    apply_pipe_step (.builtin n args) cs ca pv =
      (if n == "filter" then
        "[_x_ for _x_ in " ++ pv ++ " if "
          ++ (match ca with | [] => "None" | a :: _ => a) ++ "(_x_)]"
      else if n == "map" then
        "[" ++ (match ca with | [] => "None" | a :: _ => a)
          ++ "(_x_) for _x_ in " ++ pv ++ "]"
      else if n == "reduce" then
        "functools.reduce(" ++ argD ca 0 ++ ", " ++ pv ++ ", "
          ++ (if args.length > 1 then argD ca 1 else "None") ++ ")"
      else if n == "sort-by" || n == "sort_by" then
        "sorted(" ++ pv ++ ", key=" ++ argD ca 0 ++ ")"
      else
        if String.intercalate ", " ca ≠ "" then
          sanitize_name n ++ "(" ++ pv ++ ", " ++ String.intercalate ", " ca ++ ")"
        else sanitize_name n ++ "(" ++ pv ++ ")") := rfl

/-- The call-step branch of `_apply_pipe_step` as one equation. -/
theorem apply_pipe_step_call (f : String) (args : List Expr) (cs : String)
    (ca : List String) (pv : String) :
    apply_pipe_step (.call f args) cs ca pv =
      (if String.intercalate ", " ca ≠ "" then
        sanitize_name f ++ "(" ++ pv ++ ", " ++ String.intercalate ", " ca ++ ")"
      else sanitize_name f ++ "(" ++ pv ++ ")") := rfl

/-- Bound body of a non-catch-all match arm, as `_match_expr`'s loop computes
it (body wrapped in a binding lambda when the pattern binds names). -/
def armBound (p : Pattern) (c : Expr) : String :=
  let body := emit_expr c
  let bindings := pattern_bindings p "_mt_"
  match bindings with
  | [] => body
  | _ =>
      "(lambda " ++ String.intercalate ", " (bindings.map Prod.fst) ++ ": "
        ++ body ++ ")(" ++ String.intercalate ", " (bindings.map Prod.snd) ++ ")"

/-- Arm-loop equation: a literal arm contributes a conditional code and the
loop continues. -/
theorem mac_cons_lit (v : Lit) (c : Expr) (rest : List (Pattern × Expr)) :
    match_arms_code ((.litP v, c) :: rest) =
      .cond (pattern_condition (.litP v) "_mt_") (armBound (.litP v) c)
        :: match_arms_code rest := rfl

/-- Arm-loop equation: a constructor arm contributes a conditional code and
the loop continues. -/
theorem mac_cons_ctor (nm : String) (pargs : List Pattern) (c : Expr)
    (rest : List (Pattern × Expr)) :
    match_arms_code ((.constructor nm pargs, c) :: rest) =
      .cond (pattern_condition (.constructor nm pargs) "_mt_")
        (armBound (.constructor nm pargs) c) :: match_arms_code rest := rfl

/-- The arm loop stops at the first wildcard/bind arm: everything after it is
dropped from the compiled codes. -/
theorem mac_stops (p : Pattern) (b : Expr) (hp : SpecSide.is_catchall p = true) :
    ∀ (pre extra : List (Pattern × Expr)),
      match_arms_code (pre ++ (p, b) :: extra) = match_arms_code (pre ++ [(p, b)])
  | [], extra => by
      cases p with
      | wildcard => rfl
      | identP nm => rfl
      | litP v => simp [SpecSide.is_catchall] at hp
      | constructor nm pargs => simp [SpecSide.is_catchall] at hp
  | (q, c) :: pre', extra => by
      cases q with
      | wildcard => rfl
      | identP nm => rfl
      | litP v =>
          rw [List.cons_append, List.cons_append, mac_cons_lit, mac_cons_lit,
            mac_stops p b hp pre' extra]
      | constructor nm pargs =>
          rw [List.cons_append, List.cons_append, mac_cons_ctor, mac_cons_ctor,
            mac_stops p b hp pre' extra]

/-- Position of the unterminated-string error, in closed form: when the
scanned content has no unescaped closing quote, the scan fails carrying the
starting line advanced by one per literal (non-escape-consumed) newline. -/
theorem scan_unterminated : ∀ (cs : List Char) (line col : Nat),
    SpecSide.noClose cs = true →
    Lexer.scanString cs line col = .error (line + SpecSide.unescapedNewlines cs)
  | [], _, _, _ => rfl
  | [c], line, col, h => by
      rw [SpecSide.noClose.eq_3] at h
      rw [Lexer.scanString.eq_3, SpecSide.unescapedNewlines.eq_3]
      by_cases hq : c = '"'
      · rw [if_pos hq] at h; exact absurd h (by decide)
      · rw [if_neg hq] at h
        by_cases hb : c = '\\'
        · simp [hb]
        · by_cases hn : c = '\n'
          · simp [hq, hb, hn, Lexer.scanString.eq_1, SpecSide.unescapedNewlines.eq_1]
          · simp [hq, hb, hn, Lexer.scanString.eq_1, SpecSide.unescapedNewlines.eq_1]
  | c :: d :: rest, line, col, h => by
      rw [SpecSide.noClose.eq_2] at h
      rw [Lexer.scanString.eq_2, SpecSide.unescapedNewlines.eq_2]
      by_cases hq : c = '"'
      · rw [if_pos hq] at h; exact absurd h (by decide)
      · rw [if_neg hq] at h
        by_cases hb : c = '\\'
        · rw [if_pos hb] at h
          have ih := scan_unterminated rest line (col + 2) h
          simp [hq, hb, ih]
        · rw [if_neg hb] at h
          by_cases hn : c = '\n'
          · have ih := scan_unterminated (d :: rest) (line + 1) 1 h
            simp [hq, hb, hn, ih, Nat.add_assoc]
          · have ih := scan_unterminated (d :: rest) line (col + 1) h
            simp [hq, hb, hn, ih]

/-- A constructor arm whose class test fails falls through to the remaining
arms of the compiled chain. -/
theorem evalMatchArms_ctor_skip (fuel : Nat) (env : PySem.Env) (cls : String)
    (fs : List PySem.Val) (nm : String) (pargs : List Pattern) (b : Expr)
    (rest : List (Pattern × Expr)) (h : (sanitize_name nm == cls) = false) :
    PySem.evalMatchArms (Nat.succ fuel) env (.variant cls fs) ((.constructor nm pargs, b) :: rest)
      = PySem.evalMatchArms fuel env (.variant cls fs) rest := by
  simp only [PySem.evalMatchArms]
  simp [h]

end Starshot.Helpers

namespace Starshot.Helpers

/-! ## Contract- and effect-checker analysis

Characterisations of `check_contracts` and `check_effects` in terms of the
spec-side notions `identsOf` and `has_effect_source`, on the expression
fragments where the checkers actually look. -/

open Starshot Starshot.Checkers Starshot.SpecSide

mutual

/-- On the simple contract fragment the checker's free-variable walk agrees with the spec-side identifier collection. -/
theorem fv_eq_idents : ∀ e : Expr, simple_cond e = true → free_vars e = identsOf e
  | .ident _, _ => rfl
  | .lit _, _ => rfl
  | .op _ args, h => fv_eq_idents_list args h
  | .builtin _ args, h => fv_eq_idents_list args h
  | .call _ args, h => fv_eq_idents_list args h
  | .letE _ _ _, h => absurd (show (false : Bool) = true from h) (by decide)
  | .ifE _ _ _, h => absurd (show (false : Bool) = true from h) (by decide)
  | .matchE _ _, h => absurd (show (false : Bool) = true from h) (by decide)
  | .lam _ _, h => absurd (show (false : Bool) = true from h) (by decide)
  | .pipe _ _, h => absurd (show (false : Bool) = true from h) (by decide)
  | .doE _, h => absurd (show (false : Bool) = true from h) (by decide)
  | .listE _, h => absurd (show (false : Bool) = true from h) (by decide)
  | .record _ _, h => absurd (show (false : Bool) = true from h) (by decide)
  | .getE _ _, h => absurd (show (false : Bool) = true from h) (by decide)
  | .setE _ _ _, h => absurd (show (false : Bool) = true from h) (by decide)
  | .someE _, h => absurd (show (false : Bool) = true from h) (by decide)
  | .noneE, h => absurd (show (false : Bool) = true from h) (by decide)
  | .tryE _ _ _, h => absurd (show (false : Bool) = true from h) (by decide)
  | .errorE _, h => absurd (show (false : Bool) = true from h) (by decide)

/-- List version of `fv_eq_idents`. -/
theorem fv_eq_idents_list : ∀ es : List Expr, simple_cond_list es = true →
    free_vars_list es = identsOf_list es
  | [], _ => rfl
  | e :: es, h => by
      have h' : simple_cond e = true ∧ simple_cond_list es = true := by
        simpa [simple_cond_list, Bool.and_eq_true] using h
      show free_vars e ++ free_vars_list es = identsOf e ++ identsOf_list es
      rw [fv_eq_idents e h'.1, fv_eq_idents_list es h'.2]

end

/-- Nonemptiness of the precondition error list, characterised by a free variable outside the parameter list. -/
theorem pre_errors_ne (g : String) (params : List String) :
    ∀ (i : Nat) (pres : List Expr), pre_errors g params i pres ≠ [] ↔
      ∃ pre ∈ pres, ∃ v ∈ free_vars pre, ¬ v ∈ params
  | i, [] => by simp [pre_errors]
  | i, pre :: rest => by
      have ih := pre_errors_ne g params (i + 1) rest
      by_cases hinv : ((free_vars pre).filter (fun v => !params.contains v)).isEmpty
      · have hstep : pre_errors g params i (pre :: rest) = pre_errors g params (i + 1) rest := by
          simp [pre_errors, hinv]
          intro x hx
          have := List.filter_eq_nil_iff.mp (List.isEmpty_iff.mp hinv) x hx
          simpa using this
        rw [hstep, ih]
        constructor
        · rintro ⟨p, hp, hv⟩
          exact ⟨p, List.mem_cons_of_mem _ hp, hv⟩
        · rintro ⟨p, hp, v, hv, hnp⟩
          rcases List.mem_cons.mp hp with he | hm
          · subst he
            have hfil : (free_vars p).filter (fun v => !params.contains v) = [] :=
              List.isEmpty_iff.mp hinv
            have := List.filter_eq_nil_iff.mp hfil v hv
            simp at this
            exact absurd this hnp
          · exact ⟨p, hm, v, hv, hnp⟩
      · constructor
        · intro _
          have hne : (free_vars pre).filter (fun v => !params.contains v) ≠ [] := by
            simpa [List.isEmpty_iff] using hinv
          rcases List.exists_mem_of_ne_nil _ hne with ⟨v, hvmem⟩
          have := List.mem_filter.mp hvmem
          refine ⟨pre, List.mem_cons_self _ _, v, this.1, ?_⟩
          simpa using this.2
        · intro _
          simp [pre_errors]
          intro hall
          refine absurd ?_ hinv
          simp [List.isEmpty_iff, List.filter_eq_nil_iff]
          intro a ha
          have := hall a ha
          tauto

/-- Nonemptiness of the postcondition error list; `result` joins the allowed names. -/
theorem post_errors_ne (g : String) (params : List String) :
    ∀ (i : Nat) (posts : List Expr), post_errors g params i posts ≠ [] ↔
      ∃ post ∈ posts, ∃ v ∈ free_vars post, ¬ v ∈ params ++ ["result"]
  | i, [] => by simp [post_errors]
  | i, post :: rest => by
      have ih := post_errors_ne g params (i + 1) rest
      by_cases hinv : ((free_vars post).filter (fun v => !(params ++ ["result"]).contains v)).isEmpty
      · have hstep : post_errors g params i (post :: rest) = post_errors g params (i + 1) rest := by
          simp [post_errors, hinv]
          intro x hx
          have := List.filter_eq_nil_iff.mp (List.isEmpty_iff.mp hinv) x hx
          simpa using this
        rw [hstep, ih]
        constructor
        · rintro ⟨p, hp, hv⟩
          exact ⟨p, List.mem_cons_of_mem _ hp, hv⟩
        · rintro ⟨p, hp, v, hv, hnp⟩
          rcases List.mem_cons.mp hp with he | hm
          · subst he
            have hfil : (free_vars p).filter (fun v => !(params ++ ["result"]).contains v) = [] :=
              List.isEmpty_iff.mp hinv
            have hthis := List.filter_eq_nil_iff.mp hfil v hv
            simp at hthis hnp
            exact absurd (hthis hnp.1) hnp.2
          · exact ⟨p, hm, v, hv, hnp⟩
      · constructor
        · intro _
          have hne : (free_vars post).filter (fun v => !(params ++ ["result"]).contains v) ≠ [] := by
            simpa [List.isEmpty_iff] using hinv
          rcases List.exists_mem_of_ne_nil _ hne with ⟨v, hvmem⟩
          have := List.mem_filter.mp hvmem
          refine ⟨post, List.mem_cons_self _ _, v, this.1, ?_⟩
          simpa using this.2
        · intro _
          simp [post_errors]
          intro hall
          refine absurd ?_ hinv
          simp [List.isEmpty_iff, List.filter_eq_nil_iff]
          intro a ha
          have := hall a ha
          tauto

/-- Per-contract characterisation: some pre- or postcondition holds a free variable outside its allowed names. -/
theorem check_contract_ne (g : Graph) (c : Contract) :
    check_contract g c ≠ [] ↔
      ((∃ pre ∈ c.preconditions, ∃ v ∈ free_vars pre, ¬ v ∈ g.inputs.map Prod.fst)
       ∨ (∃ post ∈ c.postconditions, ∃ v ∈ free_vars post,
            ¬ v ∈ g.inputs.map Prod.fst ++ ["result"])) := by
  unfold check_contract
  rw [ne_eq, List.append_eq_nil, not_and_or, ← ne_eq, ← ne_eq,
    pre_errors_ne, post_errors_ne]

/-- Error-list contribution of a single definition to `check_contracts`. -/
def contribution : Defn → List String
  | .graph g =>
      match g.contract with
      | some c => check_contract g c
      | none => []
  | .typeDef _ => []

/-- Flattened per-definition view of `check_contracts`. -/
theorem check_contracts_eq (p : Program) :
    check_contracts p = (p.definitions.map contribution).flatten := by
  unfold check_contracts
  congr 1

/-- Membership in `Program.graphs` versus membership of the wrapped definition. -/
theorem mem_graphs_iff (p : Program) (g : Graph) :
    g ∈ p.graphs ↔ Defn.graph g ∈ p.definitions := by
  unfold Program.graphs
  rw [List.mem_filterMap]
  constructor
  · rintro ⟨d, hd, hsome⟩
    cases d with
    | graph g' =>
        simp at hsome
        subst hsome
        exact hd
    | typeDef td => simp at hsome
  · intro hd
    exact ⟨.graph g, hd, rfl⟩

/-- Program-level characterisation: some graph carries a failing contract. -/
theorem check_contracts_ne (p : Program) :
    check_contracts p ≠ [] ↔
      ∃ g ∈ p.graphs, ∃ c, g.contract = some c ∧ check_contract g c ≠ [] := by
  rw [check_contracts_eq, ne_eq, List.flatten_eq_nil_iff]
  constructor
  · intro h
    have : ∃ l ∈ p.definitions.map contribution, l ≠ [] := by
      by_contra hall
      push_neg at hall
      exact h hall
    rcases this with ⟨l, hl, hlne⟩
    rcases List.mem_map.mp hl with ⟨d, hd, rfl⟩
    cases d with
    | typeDef td => simp [contribution] at hlne
    | graph g =>
        cases hc : g.contract with
        | none => rw [contribution, hc] at hlne; simp at hlne
        | some c =>
            rw [contribution, hc] at hlne
            exact ⟨g, (mem_graphs_iff p g).mpr hd, c, hc, hlne⟩
  · rintro ⟨g, hg, c, hc, hne⟩ hall
    apply hne
    have hmem : contribution (.graph g) ∈ p.definitions.map contribution :=
      List.mem_map_of_mem _ ((mem_graphs_iff p g).mp hg)
    have := hall _ hmem
    rw [contribution, hc] at this
    exact this

/-- Fragment membership distributes over condition lists. -/
theorem simple_cond_of_mem {es : List Expr} (h : simple_cond_list es = true) :
    ∀ e ∈ es, simple_cond e = true := by
  induction es with
  | nil => intro e he; cases he
  | cons x xs ih =>
      intro e he
      have h' : simple_cond x = true ∧ simple_cond_list xs = true := by
        simpa [simple_cond_list, Bool.and_eq_true] using h
      rcases List.mem_cons.mp he with rfl | hm
      · exact h'.1
      · exact ih h'.2 e hm

mutual

/-- On skip-free bodies every collected effect is `pure` exactly when no effect source occurs. -/
theorem ce_nil_iff (ge : List (String × List String)) :
    ∀ e : Expr, avoids_skipped e = true →
      ((∀ a ∈ collect_effects ge e, a = "pure") ↔ has_effect_source ge e = false)
  | .lit _, _ => by simp [collect_effects, has_effect_source]
  | .ident _, _ => by simp [collect_effects, has_effect_source]
  | .noneE, _ => by simp [collect_effects, has_effect_source]
  | .letE _ v b, h => by
      have h' : avoids_skipped v = true ∧ avoids_skipped b = true := by
        simpa [avoids_skipped, Bool.and_eq_true] using h
      simp [collect_effects, has_effect_source, Bool.or_eq_false_iff, or_imp, forall_and,
        ce_nil_iff ge v h'.1, ce_nil_iff ge b h'.2]
  | .ifE c t e, h => by
      have h' : (avoids_skipped c = true ∧ avoids_skipped t = true)
          ∧ avoids_skipped e = true := by
        simpa [avoids_skipped, Bool.and_eq_true] using h
      simp [collect_effects, has_effect_source, Bool.or_eq_false_iff, or_imp, forall_and,
        ce_nil_iff ge c h'.1.1, ce_nil_iff ge t h'.1.2, ce_nil_iff ge e h'.2, and_assoc]
  | .matchE t arms, h => by
      have h' : avoids_skipped t = true ∧ avoids_arms arms = true := by
        simpa [avoids_skipped, Bool.and_eq_true] using h
      simp [collect_effects, has_effect_source, Bool.or_eq_false_iff, or_imp, forall_and,
        ce_nil_iff ge t h'.1, ce_nil_iff_arms ge arms h'.2]
  | .lam _ b, h => by
      have h' : avoids_skipped b = true := by simpa [avoids_skipped] using h
      simp [collect_effects, has_effect_source, ce_nil_iff ge b h']
  | .pipe v steps, h => by
      have h' : avoids_skipped v = true ∧ avoids_list steps = true := by
        simpa [avoids_skipped, Bool.and_eq_true] using h
      simp [collect_effects, has_effect_source, Bool.or_eq_false_iff, or_imp, forall_and,
        ce_nil_iff ge v h'.1, ce_nil_iff_list ge steps h'.2]
  | .doE es, h => by
      have h' : avoids_list es = true := by simpa [avoids_skipped] using h
      simp [collect_effects, has_effect_source, ce_nil_iff_list ge es h']
  | .op _ args, h => by
      have h' : avoids_list args = true := by simpa [avoids_skipped] using h
      simp [collect_effects, has_effect_source, ce_nil_iff_list ge args h']
  | .call f args, h => by
      have h' : avoids_list args = true := by simpa [avoids_skipped] using h
      cases hl : Checkers.lookupEffects ge f with
      | none =>
          simp [collect_effects, has_effect_source, effect_leaf, hl,
            Bool.or_eq_false_iff, or_imp, forall_and, ce_nil_iff_list ge args h']
      | some eff =>
          simp [collect_effects, has_effect_source, effect_leaf, hl,
            Bool.or_eq_false_iff, or_imp, forall_and, List.isEmpty_iff,
            List.filter_eq_nil_iff, ce_nil_iff_list ge args h']
  | .listE es, h => by
      have h' : avoids_list es = true := by simpa [avoids_skipped] using h
      simp [collect_effects, has_effect_source, ce_nil_iff_list ge es h']
  | .record _ fields, h => by
      have h' : avoids_fields fields = true := by simpa [avoids_skipped] using h
      simp [collect_effects, has_effect_source, ce_nil_iff_fields ge fields h']
  | .getE obj _, h => by
      have h' : avoids_skipped obj = true := by simpa [avoids_skipped] using h
      simp [collect_effects, has_effect_source, ce_nil_iff ge obj h']
  | .builtin n args, h => by
      have h' : avoids_list args = true := by simpa [avoids_skipped] using h
      cases hio : Checkers.IO_BUILTINS.contains n <;>
        cases hf : Checkers.FAIL_BUILTINS.contains n <;>
          simp [collect_effects, has_effect_source, effect_leaf, hio, hf,
            Bool.or_eq_false_iff, or_imp, forall_and, and_assoc,
            ce_nil_iff_list ge args h']
  | .tryE b _ cb, h => by
      have h' : avoids_skipped b = true ∧ avoids_skipped cb = true := by
        simpa [avoids_skipped, Bool.and_eq_true] using h
      simp [collect_effects, has_effect_source, Bool.or_eq_false_iff, or_imp, forall_and,
        ce_nil_iff ge b h'.1, ce_nil_iff ge cb h'.2]
  | .someE _, h => absurd (show (false : Bool) = true from h) (by decide)
  | .setE _ _ _, h => absurd (show (false : Bool) = true from h) (by decide)
  | .errorE _, h => absurd (show (false : Bool) = true from h) (by decide)

/-- List version of `ce_nil_iff`. -/
theorem ce_nil_iff_list (ge : List (String × List String)) :
    ∀ es : List Expr, avoids_list es = true →
      ((∀ a ∈ collect_effects_list ge es, a = "pure") ↔ has_source_list ge es = false)
  | [], _ => by simp [collect_effects_list, has_source_list]
  | e :: es, h => by
      have h' : avoids_skipped e = true ∧ avoids_list es = true := by
        simpa [avoids_list, Bool.and_eq_true] using h
      simp [collect_effects_list, has_source_list, Bool.or_eq_false_iff, or_imp, forall_and,
        ce_nil_iff ge e h'.1, ce_nil_iff_list ge es h'.2]

/-- Match-arm version of `ce_nil_iff`. -/
theorem ce_nil_iff_arms (ge : List (String × List String)) :
    ∀ arms : List (Pattern × Expr), avoids_arms arms = true →
      ((∀ a ∈ collect_effects_arms ge arms, a = "pure") ↔ has_source_arms ge arms = false)
  | [], _ => by simp [collect_effects_arms, has_source_arms]
  | (p, b) :: rest, h => by
      have h' : avoids_skipped b = true ∧ avoids_arms rest = true := by
        simpa [avoids_arms, Bool.and_eq_true] using h
      simp [collect_effects_arms, has_source_arms, Bool.or_eq_false_iff, or_imp, forall_and,
        ce_nil_iff ge b h'.1, ce_nil_iff_arms ge rest h'.2]

/-- Record-field version of `ce_nil_iff`. -/
theorem ce_nil_iff_fields (ge : List (String × List String)) :
    ∀ fields : List (String × Expr), avoids_fields fields = true →
      ((∀ a ∈ collect_effects_fields ge fields, a = "pure") ↔
        has_source_fields ge fields = false)
  | [], _ => by simp [collect_effects_fields, has_source_fields]
  | (f, v) :: rest, h => by
      have h' : avoids_skipped v = true ∧ avoids_fields rest = true := by
        simpa [avoids_fields, Bool.and_eq_true] using h
      simp [collect_effects_fields, has_source_fields, Bool.or_eq_false_iff, or_imp, forall_and,
        ce_nil_iff ge v h'.1, ce_nil_iff_fields ge rest h'.2]

end

/-- A graph declared exactly pure errs iff its (skip-free) body holds an effect source. -/
theorem check_graph_pure_ne (ge : List (String × List String)) (g : Graph)
    (hd : g.effects = ["pure"]) (ha : avoids_skipped g.body = true) :
    check_graph ge g ≠ [] ↔ has_effect_source ge g.body = true := by
  have hcn := ce_nil_iff ge g.body ha
  by_cases hres : ((collect_effects ge g.body).filter (· ≠ "pure")).isEmpty
  · have hall : ∀ a ∈ collect_effects ge g.body, a = "pure" := by
      intro a ha2
      have := List.filter_eq_nil_iff.mp (List.isEmpty_iff.mp hres) a ha2
      simpa using this
    have hsrc := hcn.mp hall
    simp [check_graph, hd, hres, hsrc]
    exact hall
  · have hnall : ¬ ∀ a ∈ collect_effects ge g.body, a = "pure" := by
      intro hall
      apply hres
      rw [List.isEmpty_iff, List.filter_eq_nil_iff]
      intro a ha2
      simp [hall a ha2]
    have hsrc : has_effect_source ge g.body = true := by
      cases hv : has_effect_source ge g.body with
      | false => exact absurd (hcn.mpr hv) hnall
      | true => rfl
    simp [check_graph, hd, hres, hsrc]
    push_neg at hnall
    exact hnall

/-- The program-level effect check errs iff some graph errs. -/
theorem check_effects_ne (p : Program) :
    check_effects p ≠ [] ↔
      ∃ g ∈ p.graphs, check_graph (graph_effects p) g ≠ [] := by
  unfold check_effects
  rw [ne_eq, List.flatten_eq_nil_iff]
  push_neg
  constructor
  · rintro ⟨l, hl, hlne⟩
    rcases List.mem_map.mp hl with ⟨g, hg, rfl⟩
    exact ⟨g, hg, hlne⟩
  · rintro ⟨g, hg, hne⟩
    exact ⟨_, List.mem_map_of_mem _ hg, hne⟩

end Starshot.Helpers

namespace Starshot.Claims

/-! ## Claim theorems -/

open Starshot Starshot.Emitter Starshot.PySem Starshot.Lexer Starshot.Parsing
  Starshot.Checkers Starshot.SpecSide Starshot.Helpers

/-- Combining function of scenario E: `(lambda (acc x) (+ acc x))`. -/
def lamSum : Expr := .lam [("acc", none), ("x", none)] (.op "+" [.ident "acc", .ident "x"])

/-- Scenario E in source order (fn, init, coll). -/
def reduceFIC : Expr := .builtin "reduce" [lamSum, .lit (.int 0), .ident "xs"]

/-- Scenario E in source order (coll, fn, init). -/
def reduceCFI : Expr := .builtin "reduce" [.ident "xs", lamSum, .lit (.int 0)]

/-- Scenario E in source order (coll, init, fn) — the third order the code
accepts. -/
def reduceCIF : Expr := .builtin "reduce" [.ident "xs", .lit (.int 0), lamSum]

/-- Scenario E in source order (fn, coll, init) — the third order the claim
lists. -/
def reduceFCI : Expr := .builtin "reduce" [lamSum, .ident "xs", .lit (.int 0)]

/-- Environment binding `xs` to `[1, 2, 3, 4, 5]`. -/
def envE : Env := [("xs", .list [.int 1, .int 2, .int 3, .int 4, .int 5])]

/-- Claim C1 — counterexample.  The claim permits source order
(fn, coll, init); the emitter's lambda test matches the leading lambda first
and reads the arguments as (fn, init, coll), so `(reduce (lambda (acc x)
(+ acc x)) xs 0)` compiles with `xs` and `0` swapped: the compiled text
differs from the (fn, init, coll) compilation, and applied to
`xs = [1,2,3,4,5]` it does not yield 15 (Python would try to iterate `0`). -/
theorem c1_reduce_claimed_order_counterexample :
    emit_expr reduceFIC = "functools.reduce((lambda acc, x: (acc + x)), xs, 0)"
    ∧ emit_expr reduceFCI = "functools.reduce((lambda acc, x: (acc + x)), 0, xs)"
    ∧ emit_expr reduceFCI ≠ emit_expr reduceFIC
    ∧ pyEval 30 envE reduceFIC = some (.int 15)
    ∧ pyEval 30 envE reduceFCI = Option.none := by
  refine ⟨rfl, rfl, by decide, rfl, rfl⟩

/-- Claim C1 — amended.  A three-argument `reduce` is disambiguated by which
argument position is syntactically a lambda, reading the orders
(fn, init, coll), (coll, fn, init) and (coll, init, fn) — not (fn, coll,
init) — and defaulting to (fn, init, coll) when no argument is a lambda; all
three accepted orders compile to identical text, and scenario E yields 15
under each of them. -/
theorem c1_reduce_orders_amended :
    (∀ f i c : Expr, isLambda f = true →
      emit_expr (.builtin "reduce" [f, i, c]) =
        "functools.reduce(" ++ emit_expr f ++ ", " ++ emit_expr c ++ ", " ++ emit_expr i ++ ")")
    ∧ (∀ c f i : Expr, isLambda c = false → isLambda f = true →
      emit_expr (.builtin "reduce" [c, f, i]) =
        "functools.reduce(" ++ emit_expr f ++ ", " ++ emit_expr c ++ ", " ++ emit_expr i ++ ")")
    ∧ (∀ c i f : Expr, isLambda c = false → isLambda i = false → isLambda f = true →
      emit_expr (.builtin "reduce" [c, i, f]) =
        "functools.reduce(" ++ emit_expr f ++ ", " ++ emit_expr c ++ ", " ++ emit_expr i ++ ")")
    ∧ (∀ f i c : Expr, isLambda f = false → isLambda i = false → isLambda c = false →
      emit_expr (.builtin "reduce" [f, i, c]) =
        "functools.reduce(" ++ emit_expr f ++ ", " ++ emit_expr c ++ ", " ++ emit_expr i ++ ")")
    ∧ emit_expr reduceCFI = emit_expr reduceFIC
    ∧ emit_expr reduceCIF = emit_expr reduceFIC
    ∧ pyEval 30 envE reduceFIC = some (.int 15)
    ∧ pyEval 30 envE reduceCFI = some (.int 15)
    ∧ pyEval 30 envE reduceCIF = some (.int 15) := by
  refine ⟨?_, ?_, ?_, ?_, by decide, by decide, rfl, rfl, rfl⟩
  · intro f i c hf
    rw [emit_expr_builtin, builtin_expr_reduce3]
    simp only [hf, if_true]
    rfl
  · intro c f i hc hf
    rw [emit_expr_builtin, builtin_expr_reduce3]
    simp only [hc, hf, if_true, Bool.false_eq_true, if_false]
    rfl
  · intro c i f hc hi hf
    rw [emit_expr_builtin, builtin_expr_reduce3]
    simp only [hc, hi, hf, if_true, Bool.false_eq_true, if_false]
    rfl
  · intro f i c hf hi hc
    rw [emit_expr_builtin, builtin_expr_reduce3]
    simp only [hf, hi, hc, Bool.false_eq_true, if_false]
    rfl

/-- Claim C1 — witness for the amended theorem at scenario E's inputs. -/
theorem c1_reduce_orders_witness :
    emit_expr (.builtin "reduce" [lamSum, .lit (.int 0), .ident "xs"]) =
      "functools.reduce(" ++ emit_expr lamSum ++ ", " ++ emit_expr (.ident "xs")
        ++ ", " ++ emit_expr (.lit (.int 0)) ++ ")" :=
  c1_reduce_orders_amended.1 lamSum (.lit (.int 0)) (.ident "xs") (by decide)

/-- Even-number predicate of scenario B. -/
def lamEven : Expr :=
  .lam [("x", none)] (.op "==" [.op "%" [.ident "x", .lit (.int 2)], .lit (.int 0)])

/-- Doubling function of scenario B. -/
def lamDouble : Expr := .lam [("x", none)] (.op "*" [.ident "x", .lit (.int 2)])

/-- Scenario B pipe. -/
def pipeB : Expr :=
  .pipe (.ident "xs") [.builtin "filter" [lamEven], .builtin "map" [lamDouble]]

/-- Environment binding `xs` to `[1, 2, 3, 4, 5, 6]`. -/
def envB : Env := [("xs", .list [.int 1, .int 2, .int 3, .int 4, .int 5, .int 6])]

/-- Claim C2 — counterexample.  In `(pipe x (f (lambda (y) y)))` the step has
exactly one argument and it is a lambda, so the claimed lambda-position rule
would thread `x` into the *other* argument position, `f((lambda y: y), x)`;
the emitter performs no lambda detection on pipe steps and always inserts the
threaded value first: `f(x, (lambda y: y))`. -/
theorem c2_pipe_lambda_detection_counterexample :
    emit_expr (.pipe (.ident "x") [.call "f" [.lam [("y", none)] (.ident "y")]]) =
      "f(x, (lambda y: y))"
    ∧ "f(x, (lambda y: y))" ≠ "f((lambda y: y), x)" := by
  exact ⟨by decide, by decide⟩

/-- Claim C2 — amended.  The pipe threads left to right, but the insertion
position is fixed per step shape, with no lambda-position detection: builtin
steps named `filter`/`map` take their first literal argument (`None` when
absent) as the function and thread the value as the iterable; `reduce`
threads the value as the iterable between its function and its initializer
(`None` when only the function is given); `sort-by`/`sort_by` steps compile
to `sorted(value, key=fn)`; every other builtin step and every named-graph
call step receives the threaded value as its first argument, followed by the
step's literal arguments when there are any.  Scenario B still yields
`[4, 8, 12]`. -/
theorem c2_pipe_insertion_amended :
    (∀ (args : List Expr) (cs pv : String),
      apply_pipe_step (.builtin "filter" args) cs (emit_args args) pv =
        "[_x_ for _x_ in " ++ pv ++ " if "
          ++ (match emit_args args with | [] => "None" | a :: _ => a) ++ "(_x_)]")
    ∧ (∀ (args : List Expr) (cs pv : String),
      apply_pipe_step (.builtin "map" args) cs (emit_args args) pv =
        "[" ++ (match emit_args args with | [] => "None" | a :: _ => a)
          ++ "(_x_) for _x_ in " ++ pv ++ "]")
    ∧ (∀ (a i : Expr) (rest : List Expr) (cs pv : String),
      apply_pipe_step (.builtin "reduce" (a :: i :: rest)) cs (emit_args (a :: i :: rest)) pv =
        "functools.reduce(" ++ emit_expr a ++ ", " ++ pv ++ ", " ++ emit_expr i ++ ")")
    ∧ (∀ (a : Expr) (cs pv : String),
      apply_pipe_step (.builtin "reduce" [a]) cs (emit_args [a]) pv =
        "functools.reduce(" ++ emit_expr a ++ ", " ++ pv ++ ", " ++ "None" ++ ")")
    ∧ (∀ (a : Expr) (rest : List Expr) (cs pv : String),
      apply_pipe_step (.builtin "sort-by" (a :: rest)) cs (emit_args (a :: rest)) pv =
        "sorted(" ++ pv ++ ", key=" ++ emit_expr a ++ ")")
    ∧ (∀ (a : Expr) (rest : List Expr) (cs pv : String),
      apply_pipe_step (.builtin "sort_by" (a :: rest)) cs (emit_args (a :: rest)) pv =
        "sorted(" ++ pv ++ ", key=" ++ emit_expr a ++ ")")
    ∧ (∀ (n : String) (args : List Expr) (cs pv : String),
      ¬ n ∈ ["filter", "map", "reduce", "sort-by", "sort_by"] →
      apply_pipe_step (.builtin n args) cs (emit_args args) pv =
        (if String.intercalate ", " (emit_args args) ≠ "" then
          sanitize_name n ++ "(" ++ pv ++ ", " ++ String.intercalate ", " (emit_args args) ++ ")"
         else sanitize_name n ++ "(" ++ pv ++ ")"))
    ∧ (∀ (f : String) (args : List Expr) (cs pv : String),
      apply_pipe_step (.call f args) cs (emit_args args) pv =
        (if String.intercalate ", " (emit_args args) ≠ "" then
          sanitize_name f ++ "(" ++ pv ++ ", " ++ String.intercalate ", " (emit_args args) ++ ")"
         else sanitize_name f ++ "(" ++ pv ++ ")"))
    ∧ emit_expr pipeB =
        "[(lambda x: (x * 2))(_x_) for _x_ in [_x_ for _x_ in xs if (lambda x: ((x % 2) == 0))(_x_)]]"
    ∧ pyEval 30 envB pipeB = some (.list [.int 4, .int 8, .int 12]) := by
  refine ⟨?_, ?_, ?_, ?_, ?_, ?_, ?_, ?_, by decide, rfl⟩
  · intro args cs pv
    rfl
  · intro args cs pv
    rfl
  · intro a i rest cs pv
    rw [show apply_pipe_step (.builtin "reduce" (a :: i :: rest)) cs
          (emit_args (a :: i :: rest)) pv
        = "functools.reduce(" ++ emit_expr a ++ ", " ++ pv ++ ", "
          ++ (if (a :: i :: rest).length > 1 then emit_expr i else "None") ++ ")" from rfl,
      if_pos (by simp)]
  · intro a cs pv
    rfl
  · intro a rest cs pv
    rfl
  · intro a rest cs pv
    rfl
  · intro n args cs pv hn
    simp only [List.mem_cons, List.not_mem_nil, or_false, not_or] at hn
    obtain ⟨h1, h2, h3, h4, h5⟩ := hn
    rw [apply_pipe_step_builtin]
    simp [beq_eq_false_iff_ne.mpr h1, beq_eq_false_iff_ne.mpr h2,
      beq_eq_false_iff_ne.mpr h3, beq_eq_false_iff_ne.mpr h4,
      beq_eq_false_iff_ne.mpr h5]
  · intro f args cs pv
    rfl

/-- Claim C2 — witness for the amended theorem: the generic-builtin rule at
the step `(take 3)` threaded with value text `xs`. -/
theorem c2_pipe_insertion_witness :
    apply_pipe_step (.builtin "take" [.lit (.int 3)]) "" (emit_args [.lit (.int 3)]) "xs" =
      (if String.intercalate ", " (emit_args [.lit (.int 3)]) ≠ "" then
        sanitize_name "take" ++ "(" ++ "xs" ++ ", "
          ++ String.intercalate ", " (emit_args [.lit (.int 3)]) ++ ")"
       else sanitize_name "take" ++ "(" ++ "xs" ++ ")") :=
  (c2_pipe_insertion_amended.2.2.2.2.2.2.1) "take" [.lit (.int 3)] "" "xs" (by decide)

/-- Claim C6 — confirmed.  Every binary `/` application is emitted as Python
floor division `a // b`, while the type checker's join rule infers `Int` for
`Int` operands and `Float` as soon as one operand is `Float`; the emitted
operator floor-divides in either case (`7 // 2 = 3`, `-7 // 2 = -4`). -/
theorem c6_division_floors :
    (∀ a b : Expr, emit_expr (.op "/" [a, b]) =
      "(" ++ emit_expr a ++ " // " ++ emit_expr b ++ ")")
    ∧ infer_op [] "/" [some (.primitive "Int"), some (.primitive "Int")] =
        (some (.primitive "Int"), [])
    ∧ infer_op [] "/" [some (.primitive "Float"), some (.primitive "Int")] =
        (some (.primitive "Float"), [])
    ∧ infer_op [] "/" [some (.primitive "Int"), some (.primitive "Float")] =
        (some (.primitive "Float"), [])
    ∧ pyEval 10 [] (.op "/" [.lit (.int 7), .lit (.int 2)]) = some (.int 3)
    ∧ pyEval 10 [] (.op "/" [.lit (.int (-7)), .lit (.int 2)]) = some (.int (-4)) := by
  refine ⟨?_, rfl, rfl, rfl, rfl, rfl⟩
  intro a b
  show "(" ++ emit_expr a ++ " " ++ "//" ++ " " ++ emit_expr b ++ ")" = _
  simp [String.append_assoc, lit_fold " " "//" _ rfl, lit_fold " //" " " _ rfl]

/-- Claim C8 — confirmed.  Option wrapping is erased by the emitter: the text
for `(some e)` (both the dedicated node and the builtin spelling) is exactly
the text for `e`, `unwrap` emits its argument unchanged, and the none
expression and `none` builtin emit Python's `None`. -/
theorem c8_option_erasure :
    (∀ e : Expr, emit_expr (.someE e) = emit_expr e)
    ∧ (∀ e : Expr, emit_expr (.builtin "some" [e]) = emit_expr e)
    ∧ (∀ e : Expr, emit_expr (.builtin "unwrap" [e]) = emit_expr e)
    ∧ emit_expr .noneE = "None"
    ∧ (∀ args : List Expr, emit_expr (.builtin "none" args) = "None") := by
  exact ⟨fun e => rfl, fun e => rfl, fun e => rfl, rfl, fun args => rfl⟩

/-- Scenario D match: `(match c ((Red) true) (_ false))`. -/
def matchD : Expr := .matchE (.ident "c")
  [(.constructor "Red" [], .lit (.bool true)), (.wildcard, .lit (.bool false))]

/-- A match with a single `(Red)` arm and no catch-all. -/
def matchN : Expr := .matchE (.ident "c") [(.constructor "Red" [], .lit (.bool true))]

/-- Claim C5 — confirmed.  The compiled match tries arms in declared order
against the once-evaluated target; a literal arm is an equality test and a
payload-free constructor arm a type-tag (`isinstance`) test; the first
wildcard or bind arm truncates the compiled chain, so any arms after it never
influence the output (not an error); an exhausted chain (and an arm-less
match) evaluates to `None`; scenario D yields `True` on the `Red` variant and
`False` on every other variant. -/
theorem c5_match_compilation :
    (∀ (t : Expr) (pre : List (Pattern × Expr)) (p : Pattern) (b : Expr)
        (extra : List (Pattern × Expr)), is_catchall p = true →
      emit_expr (.matchE t (pre ++ (p, b) :: extra)) = emit_expr (.matchE t (pre ++ [(p, b)])))
    ∧ (∀ (t : Expr) (v : Lit) (b : Expr),
      emit_expr (.matchE t [(.litP v, b)]) =
        "(lambda _mt_: (" ++ emit_expr b ++ " if _mt_ == " ++ pyRepr v ++ " else None))("
          ++ emit_expr t ++ ")")
    ∧ (∀ (t : Expr) (n : String) (b : Expr),
      emit_expr (.matchE t [(.constructor n [], b)]) =
        "(lambda _mt_: (" ++ emit_expr b ++ " if isinstance(_mt_, " ++ sanitize_name n
          ++ ") else None))(" ++ emit_expr t ++ ")")
    ∧ (∀ t : Expr, emit_expr (.matchE t []) = "None")
    ∧ pyEval 30 [("c", .variant "Red" [])] matchD = some (.bool true)
    ∧ (∀ (cls : String) (fs : List Val), cls ≠ "Red" →
        pyEval 30 [("c", .variant cls fs)] matchD = some (.bool false))
    ∧ pyEval 30 [("c", .variant "Blue" [])] matchN = some Val.none := by
  refine ⟨?_, ?_, ?_, fun t => rfl, rfl, ?_, rfl⟩
  · intro t pre p b extra hp
    show (match match_arms_code (pre ++ (p, b) :: extra) with
          | [] => "None"
          | code => "(lambda _mt_: " ++ build_match_chain code ++ ")(" ++ emit_expr t ++ ")")
        = (match match_arms_code (pre ++ [(p, b)]) with
          | [] => "None"
          | code => "(lambda _mt_: " ++ build_match_chain code ++ ")(" ++ emit_expr t ++ ")")
    rw [mac_stops p b hp pre extra]
  · intro t v b
    show "(lambda _mt_: " ++ ("(" ++ emit_expr b ++ " if " ++ ("_mt_ == " ++ pyRepr v)
        ++ " else " ++ "None" ++ ")") ++ ")(" ++ emit_expr t ++ ")" = _
    simp [String.append_assoc, lit_fold "(lambda _mt_: " "(" _ rfl,
      lit_fold " if " "_mt_ == " _ rfl, lit_fold "None" ")" _ rfl,
      lit_fold "None)" ")(" _ rfl, lit_fold " else " "None))(" _ rfl]
  · intro t n b
    show "(lambda _mt_: " ++ ("(" ++ emit_expr b ++ " if "
        ++ ("isinstance(_mt_, " ++ sanitize_name n ++ ")") ++ " else " ++ "None" ++ ")")
        ++ ")(" ++ emit_expr t ++ ")" = _
    simp [String.append_assoc, lit_fold "(lambda _mt_: " "(" _ rfl,
      lit_fold " if " "isinstance(_mt_, " _ rfl, lit_fold "None" ")" _ rfl,
      lit_fold "None)" ")(" _ rfl, lit_fold " else " "None))(" _ rfl,
      lit_fold ")" " else None))(" _ rfl]
  · intro cls fs h
    have h1 : (sanitize_name "Red" == cls) = false := by
      rw [show sanitize_name "Red" = "Red" from rfl]
      exact beq_eq_false_iff_ne.mpr (Ne.symm h)
    rw [show pyEval 30 [("c", Val.variant cls fs)] matchD
        = evalMatchArms 29 [("c", Val.variant cls fs)] (Val.variant cls fs)
            [(.constructor "Red" [], .lit (.bool true)), (.wildcard, .lit (.bool false))] from rfl,
      show (29 : Nat) = Nat.succ 28 from rfl,
      evalMatchArms_ctor_skip 28 _ cls fs "Red" [] _ _ h1]
    rfl

/-- Claim C5 — witness: the truncation rule at a concrete arm list and the
other-variant evaluation at the `Blue` variant. -/
theorem c5_match_compilation_witness :
    emit_expr (.matchE (.ident "c")
        ([(.litP (.int 1), .lit (.int 10))] ++ (.wildcard, .lit (.int 0))
          :: [(.litP (.int 2), .lit (.int 20))]))
      = emit_expr (.matchE (.ident "c")
        ([(.litP (.int 1), .lit (.int 10))] ++ [(.wildcard, .lit (.int 0))]))
    ∧ pyEval 30 [("c", .variant "Blue" [])] matchD = some (.bool false) :=
  ⟨c5_match_compilation.1 (.ident "c") [(.litP (.int 1), .lit (.int 10))] .wildcard
      (.lit (.int 0)) [(.litP (.int 2), .lit (.int 20))] (by decide),
   c5_match_compilation.2.2.2.2.2.1 "Blue" [] (by decide)⟩

/-- Claim C7 — counterexample.  For the source consisting of a double quote,
`a`, a literal newline and `b`, the opening quote sits at line 1, column 1,
but the unterminated-string error reports line 2 (the line counter at end of
input) with column 1. -/
theorem c7_unterminated_line_counterexample :
    tokenize "\"a\nb" = .error ⟨"Unterminated string literal", 2, 1⟩
    ∧ (LexError.mk "Unterminated string literal" 2 1)
        ≠ ⟨"Unterminated string literal", 1, 1⟩ := by
  exact ⟨rfl, by decide⟩

/-- Claim C7 — amended.  An unterminated string makes `tokenize` fail with an
unterminated-string error whose reported *column* is the opening quote's
1-based column, while the reported *line* is the line counter at end of
input: the opening line plus one per literal newline scanned inside the
string (escape pairs hide the following character from that counter).  The
two positions agree exactly when the unterminated string spans no literal
newline. -/
theorem c7_unterminated_position_amended :
    (∀ (cs : List Char) (line col : Nat), noClose cs = true →
      scanString cs line col = .error (line + unescapedNewlines cs))
    ∧ tokenize "ab \"xy" = .error ⟨"Unterminated string literal", 1, 4⟩
    ∧ tokenize "\"a\nb" = .error ⟨"Unterminated string literal", 2, 1⟩ :=
  ⟨Helpers.scan_unterminated, rfl, rfl⟩

/-- Claim C7 — witness for the amended theorem: content `x` + newline with
the scan starting at line 1, column 2. -/
theorem c7_unterminated_position_witness :
    noClose ['x', '\n'] = true
    ∧ scanString ['x', '\n'] 1 2 = .error (1 + unescapedNewlines ['x', '\n']) :=
  ⟨by decide, c7_unterminated_position_amended.1 ['x', '\n'] 1 2 (by decide)⟩

/-- Claim C9 — confirmed.  `parse` returns a `Program` only when, after the
closing parenthesis of the top-level `(program ...)` form, the next token is
end-of-input; whenever a non-end-of-input token remains there, `parse`
produces the "Unexpected tokens after program" parse error.  Concretely,
`(program) x` is rejected while `(program)` parses. -/
theorem c9_parse_consumes_all_tokens :
    (∀ (source : String) (p : Program), parse source = .ok p →
      ∃ (tokens : List Token) (prog : Program) (rest : List Token) (t : Token),
        tokenize source = .ok tokens
        ∧ parse_program (tokens.length + 1) tokens = .ok (prog, rest)
        ∧ peekT rest = .ok t ∧ t.type = .eof)
    ∧ (∀ (source : String) (tokens : List Token) (prog : Program) (rest : List Token)
        (t : Token),
        tokenize source = .ok tokens →
        parse_program (tokens.length + 1) tokens = .ok (prog, rest) →
        peekT rest = .ok t → t.type ≠ .eof →
        parse source = .error (.parseE (.parse "Unexpected tokens after program" (some t))))
    ∧ parse "(program) x" = .error (.parseE (.parse "Unexpected tokens after program"
        (some ⟨.ident, "x", 1, 11⟩)))
    ∧ parse "(program)" = .ok ⟨[]⟩ := by
  refine ⟨?_, ?_, rfl, rfl⟩
  · intro source p h
    unfold parse at h
    cases htok : tokenize source with
    | error e =>
        simp only [htok] at h
        exact Except.noConfusion h
    | ok tokens =>
        simp only [htok] at h
        cases hpp : parse_program (tokens.length + 1) tokens with
        | error e =>
            simp only [hpp] at h
            exact Except.noConfusion h
        | ok pr =>
            obtain ⟨prog, rest⟩ := pr
            simp only [hpp] at h
            cases hpk : peekT rest with
            | error e =>
                simp only [hpk] at h
                exact Except.noConfusion h
            | ok t =>
                simp only [hpk] at h
                by_cases heof : (t.type == TokenType.eof) = true
                · exact ⟨tokens, prog, rest, t, rfl, hpp, hpk, by simpa using heof⟩
                · rw [if_neg heof] at h
                  exact Except.noConfusion h
  · intro source tokens prog rest t h1 h2 h3 h4
    unfold parse
    simp only [h1, h2, h3]
    rw [if_neg (by simpa using h4)]

/-- Claim C9 — witness: the only-if direction applied to the concrete source
`(program) x` and its token stream. -/
theorem c9_parse_consumes_all_tokens_witness :
    parse "(program) x" = .error (.parseE (.parse "Unexpected tokens after program"
      (some ⟨.ident, "x", 1, 11⟩))) :=
  c9_parse_consumes_all_tokens.2.1 "(program) x"
    [⟨.lparen, "(", 1, 1⟩, ⟨.ident, "program", 1, 2⟩, ⟨.rparen, ")", 1, 9⟩,
     ⟨.ident, "x", 1, 11⟩, ⟨.eof, "", 1, 12⟩]
    ⟨[]⟩ [⟨.ident, "x", 1, 11⟩, ⟨.eof, "", 1, 12⟩] ⟨.ident, "x", 1, 11⟩
    rfl rfl rfl (by decide)

/-- Program whose pure graph calls an undefined name (which itself calls a
builtin-like name) through the `call` form. -/
def progC10 : Program :=
  ⟨[.graph ⟨"g", [], .primitive "Int", ["pure"], none,
    .call "mystery" [.call "length" [.lit (.int 1)]]⟩]⟩

/-- Claim C10 — confirmed.  In `_collect_effects`, a call whose function name
is not a registered graph contributes only its arguments' effects; hence the
pure graph of `progC10`, whose body calls the undefined name `mystery` (and,
inside it, the builtin-like name `length`) via the call form, receives no
effect diagnostic. -/
theorem c10_unregistered_call_no_effects :
    (∀ (ge : List (String × List String)) (f : String) (args : List Expr),
      lookupEffects ge f = none →
      collect_effects ge (.call f args) = collect_effects_list ge args)
    ∧ check_effects progC10 = [] := by
  refine ⟨?_, rfl⟩
  intro ge f args h
  show (match lookupEffects ge f with
        | some eff => eff.filter (· ≠ "pure")
        | none => []) ++ collect_effects_list ge args = collect_effects_list ge args
  rw [h]
  simp

/-- Claim C10 — witness: the unregistered-call rule at `progC10`'s own
registry and body. -/
theorem c10_unregistered_call_no_effects_witness :
    collect_effects (graph_effects progC10) (.call "mystery" [.call "length" [.lit (.int 1)]])
      = collect_effects_list (graph_effects progC10) [.call "length" [.lit (.int 1)]] :=
  c10_unregistered_call_no_effects.1 (graph_effects progC10) "mystery"
    [.call "length" [.lit (.int 1)]] rfl

/-! ### C3: the contract checker (`check_contracts`) -/

/-- Precondition `(if flag true true)`: its identifier occurs only inside an `if`, which the checker never walks. -/
def preC3 : Expr := .ifE (.ident "flag") (.lit (.bool true)) (.lit (.bool true))

/-- Contract holding only `preC3`. -/
def cC3 : Contract := { preconditions := [preC3], postconditions := [] }

/-- Pure graph `g` with input `n` and the contract `cC3`. -/
def gC3 : Graph :=
  { name := "g", inputs := [("n", .primitive "Int")], output := .primitive "Int",
    effects := ["pure"], contract := some cC3, body := .ident "n" }

/-- C3 counterexample program. -/
def progC3 : Program := { definitions := [.graph gC3] }

/-- C3 counterexample: `progC3` carries a precondition whose identifier `flag` lies outside the input parameter names, yet `check_contracts` reports nothing — the checker's free-variable walk never descends into an `if` condition, so the claimed equivalence fails as stated. -/
theorem c3_contract_vars_counterexample :
    Checkers.check_contracts progC3 = [] ∧
    ∃ g ∈ progC3.graphs, ∃ c, g.contract = some c ∧
      ∃ pre ∈ c.preconditions, ∃ v ∈ identsOf pre, ¬ v ∈ g.inputs.map Prod.fst := by
  refine ⟨rfl, gC3, ?_, cC3, rfl, preC3, ?_, "flag", ?_, ?_⟩
  · simp [progC3, Program.graphs, gC3]
  · simp [cC3]
  · show "flag" ∈ identsOf preC3
    decide
  · decide

/-- C3 (amended): restricted to programs whose contract conditions lie in the identifier/literal/operator/builtin/call fragment the checker actually walks, `check_contracts` reports an error iff some graph carries a contract with a precondition referencing an identifier outside the graph's input parameter names, or a postcondition referencing an identifier outside the inputs plus `result`. -/
theorem c3_contract_vars_amended (p : Program) (hs : contracts_simple p = true) :
    check_contracts p ≠ [] ↔
      ∃ g ∈ p.graphs, ∃ c, g.contract = some c ∧
        ((∃ pre ∈ c.preconditions, ∃ v ∈ identsOf pre, ¬ v ∈ g.inputs.map Prod.fst)
         ∨ (∃ post ∈ c.postconditions, ∃ v ∈ identsOf post,
              ¬ v ∈ g.inputs.map Prod.fst ++ ["result"])) := by
  rw [check_contracts_ne]
  unfold contracts_simple at hs
  rw [List.all_eq_true] at hs
  constructor
  · rintro ⟨g, hg, c, hc, hne⟩
    refine ⟨g, hg, c, hc, ?_⟩
    have hsg := hs g hg
    rw [hc] at hsg
    have hsg' : simple_cond_list c.preconditions = true ∧
        simple_cond_list c.postconditions = true := by
      simpa [Bool.and_eq_true] using hsg
    rcases (check_contract_ne g c).mp hne with ⟨pre, hp, v, hv, hnp⟩ | ⟨post, hp, v, hv, hnp⟩
    · exact Or.inl ⟨pre, hp, v, by
        rw [← fv_eq_idents pre (simple_cond_of_mem hsg'.1 pre hp)]; exact hv, hnp⟩
    · exact Or.inr ⟨post, hp, v, by
        rw [← fv_eq_idents post (simple_cond_of_mem hsg'.2 post hp)]; exact hv, hnp⟩
  · rintro ⟨g, hg, c, hc, hor⟩
    refine ⟨g, hg, c, hc, ?_⟩
    have hsg := hs g hg
    rw [hc] at hsg
    have hsg' : simple_cond_list c.preconditions = true ∧
        simple_cond_list c.postconditions = true := by
      simpa [Bool.and_eq_true] using hsg
    apply (check_contract_ne g c).mpr
    rcases hor with ⟨pre, hp, v, hv, hnp⟩ | ⟨post, hp, v, hv, hnp⟩
    · exact Or.inl ⟨pre, hp, v, by
        rw [fv_eq_idents pre (simple_cond_of_mem hsg'.1 pre hp)]; exact hv, hnp⟩
    · exact Or.inr ⟨post, hp, v, by
        rw [fv_eq_idents post (simple_cond_of_mem hsg'.2 post hp)]; exact hv, hnp⟩

/-- Precondition `(>= x 0)` in the walked fragment; `x` is not an input. -/
def preC3W : Expr := .op ">=" [.ident "x", .lit (.int 0)]

/-- Contract holding only `preC3W`. -/
def cC3W : Contract := { preconditions := [preC3W], postconditions := [] }

/-- Graph `w` with input `n` and the contract `cC3W`. -/
def gC3W : Graph :=
  { name := "w", inputs := [("n", .primitive "Int")], output := .primitive "Int",
    effects := ["pure"], contract := some cC3W, body := .ident "n" }

/-- C3 witness program: its one contract lies in the simple fragment and is flagged. -/
def progC3W : Program := { definitions := [.graph gC3W] }

/-- C3 witness: the amended equivalence instantiated at `progC3W`, whose contract lies in the walked fragment. -/
theorem c3_contract_vars_witness :
    contracts_simple progC3W = true ∧
    (Checkers.check_contracts progC3W ≠ [] ↔
      ∃ g ∈ progC3W.graphs, ∃ c, g.contract = some c ∧
        ((∃ pre ∈ c.preconditions, ∃ v ∈ identsOf pre, ¬ v ∈ g.inputs.map Prod.fst)
         ∨ (∃ post ∈ c.postconditions, ∃ v ∈ identsOf post,
              ¬ v ∈ g.inputs.map Prod.fst ++ ["result"]))) :=
  ⟨rfl, c3_contract_vars_amended progC3W rfl⟩

/-! ### C4: the effect checker (`check_effects`) -/

/-- Pure graph whose body wraps a `print` builtin in a `some` node. -/
def gC4some : Graph :=
  { name := "p1", inputs := [], output := .primitive "Unit",
    effects := ["pure"], contract := none,
    body := .someE (.builtin "print" [.lit (.str "hi")]) }

/-- Pure graph whose body is the `(error ...)` form. -/
def gC4err : Graph :=
  { name := "p2", inputs := [], output := .primitive "Unit",
    effects := ["pure"], contract := none,
    body := .errorE (.lit (.str "boom")) }

/-- C4 counterexample program. -/
def progC4 : Program := { definitions := [.graph gC4some, .graph gC4err] }

/-- C4 counterexample: both graphs of `progC4` are declared pure and their bodies contain an io- or fail-contributing construct — a `print` builtin under a `some` wrapper, and the `(error ...)` form itself — yet `check_effects` reports nothing: `_collect_effects` has no branch for `SomeExpr`, `SetExpr` or `ErrorExpr`, so those nodes and their subtrees contribute no effects, and the claimed equivalence fails as stated. -/
theorem c4_pure_effects_counterexample :
    Checkers.check_effects progC4 = [] ∧
    gC4some ∈ progC4.graphs ∧ gC4some.effects = ["pure"] ∧
    has_effect_source (Checkers.graph_effects progC4) gC4some.body = true ∧
    gC4err ∈ progC4.graphs ∧ gC4err.effects = ["pure"] ∧
    has_effect_source (Checkers.graph_effects progC4) gC4err.body = true := by
  refine ⟨rfl, ?_, rfl, rfl, ?_, rfl, rfl⟩ <;>
    simp [progC4, Program.graphs, gC4some, gC4err]

/-- C4 (amended): for a graph declared with effect set exactly `pure` whose body contains no `some`/`set!`/`error` node, the per-graph effect check errs iff the body structurally contains an io- or fail-contributing construct; and `check_effects` errs iff the per-graph check of some graph of the program does. -/
theorem c4_pure_effects_amended (p : Program) (g : Graph)
    (_hg : g ∈ p.graphs) (hd : g.effects = ["pure"])
    (ha : avoids_skipped g.body = true) :
    (check_graph (graph_effects p) g ≠ [] ↔
       has_effect_source (graph_effects p) g.body = true)
    ∧ (check_effects p ≠ [] ↔
        ∃ g2 ∈ p.graphs, check_graph (graph_effects p) g2 ≠ []) :=
  ⟨check_graph_pure_ne (graph_effects p) g hd ha, check_effects_ne p⟩

/-- Pure graph whose body is a bare `print` builtin. -/
def gC4W : Graph :=
  { name := "w", inputs := [], output := .primitive "Unit",
    effects := ["pure"], contract := none,
    body := .builtin "print" [.lit (.str "hi")] }

/-- C4 witness program: effect check flags its one graph. -/
def progC4W : Program := { definitions := [.graph gC4W] }

/-- C4 witness: the amended equivalence instantiated at `progC4W`, whose pure graph calls `print` directly. -/
theorem c4_pure_effects_witness :
    gC4W ∈ progC4W.graphs ∧ gC4W.effects = ["pure"] ∧
      avoids_skipped gC4W.body = true ∧
      ((check_graph (graph_effects progC4W) gC4W ≠ [] ↔
         has_effect_source (graph_effects progC4W) gC4W.body = true)
       ∧ (check_effects progC4W ≠ [] ↔
           ∃ g2 ∈ progC4W.graphs, check_graph (graph_effects progC4W) g2 ≠ [])) := by
  have hmem : gC4W ∈ progC4W.graphs := by simp [progC4W, Program.graphs]
  exact ⟨hmem, rfl, rfl, c4_pure_effects_amended progC4W gC4W hmem rfl rfl⟩

end Starshot.Claims
